import Mathlib

/-!
Shallow embedding of the statistical comparison engine of the
`quant-survey` repository, together with proofs checking the
natural-language specification's claims against the code.

The embedded source files are:
* `survey/utils/processing.py` (`get_group_pairs`, `match_all`)
* `survey/utils/data_frames.py` (`count_coincidences`)
* `survey/utils/probability/prob_utils.py` (`create_cpt`, `create_jpt`)
* `survey/utils/analysis.py` (`analyze_responses_by_attribute`,
  `prune_results`)
* `survey/mixins/data_types/categorical_mixin.py` (`group_pairs`)
* `survey/mixins/data_types/single_category_significance_mixin.py`

Machine integers in the Python source are arbitrary precision, so `Nat`
is used directly; pandas float divisions are modelled over `ℚ` with
`Option ℚ` (`none` standing for a float NaN produced by `0/0`).
-/

namespace QuantSurvey



instance {ε α : Type} [DecidableEq ε] [DecidableEq α] : DecidableEq (Except ε α) := fun x y =>
  match x, y with
  | .error a, .error b =>
    if h : a = b then isTrue (by rw [h]) else isFalse (by intro hh; cases hh; exact h rfl)
  | .error _, .ok _ => isFalse (by intro hh; cases hh)
  | .ok _, .error _ => isFalse (by intro hh; cases hh)
  | .ok a, .ok b =>
    if h : a = b then isTrue (by rw [h]) else isFalse (by intro hh; cases hh; exact h rfl)

/-! ### `get_group_pairs` (survey/utils/processing.py)

The Python code renders the loop counter `i` as a binary string zero
filled to `num_items` characters, then assigns the item at each string
position to group 0 or group 1 according to the corresponding bit.
`lbits n i` is the list of the `n` low bits of `i`, least significant
first; `bits n i` reverses it, matching the zero-filled big-endian
string `f'{i:b}'.zfill(num_items)` for `i < 2 ^ n`. -/

def lbits : Nat → Nat → List Nat
  | 0, _ => []
  | n + 1, i => (i % 2) :: lbits n (i / 2)

def bits (n i : Nat) : List Nat :=
  (lbits n i).reverse

/-- `_get_groups` in the source: walk `zip(group_indices, items)` and
send each item to group 0 or group 1 according to its bit. -/
def getGroups {α : Type} : List Nat → List α → List α × List α
  | b :: bs, x :: xs =>
    let p := getGroups bs xs
    if b = 0 then (x :: p.1, p.2) else (p.1, x :: p.2)
  | _, _ => ([], [])

/-- The `if` condition of the `ordered` branch of `get_group_pairs`:
`num_zeros`, `num_ones`, `zeros_left` and `ones_left` are computed from
the zero-filled binary string exactly as in the source. -/
def orderedCond (numItems i : Nat) : Bool :=
  let s := bits numItems i
  let numZeros := s.count 0
  let numOnes := numItems - numZeros
  let zerosLeft := (s.take numZeros).count 0
  let onesLeft := (s.take numOnes).count 1
  (decide (0 < zerosLeft) && decide (zerosLeft = numZeros)) ||
    (decide (0 < onesLeft) && decide (onesLeft = numOnes))

/-- `get_group_pairs(items, ordered, include_empty)`: iterate `i` over
`range(i_start, i_end)` (embedded as `List.range'`, whose second
argument is the length of the range), keep every `i` in the unordered
case and only those satisfying `orderedCond` in the ordered case, and
map each survivor to its pair of groups. -/
def get_group_pairs {α : Type} (items : List α)
    (ordered include_empty : Bool) : List (List α × List α) :=
  let numItems := items.length
  let iStart := if include_empty then 0 else 1
  let iEnd := if include_empty then 2 ^ numItems else 2 ^ numItems - 1
  let indices := List.range' iStart (iEnd - iStart)
  if ordered then
    (indices.filter (orderedCond numItems)).map
      (fun i => getGroups (bits numItems i) items)
  else
    indices.map (fun i => getGroups (bits numItems i) items)

/-! Facts about the binary-string rendering. -/

/-- Value of a little-endian bit list. -/
def ofLbits : List Nat → Nat
  | [] => 0
  | b :: bs => b + 2 * ofLbits bs

/-! ### `count_coincidences` (survey/utils/data_frames.py)

The two arguments may each be a pandas `Series` (one labelled column)
or a `DataFrame` of 0/1 indicator columns.  Keys are index tuples, one
`String` per index level; an index with at least two levels models a
`MultiIndex`.  A `none` value models a NaN (missing observation).  The
pandas pipeline `merge(outer) → groupby(size) → pivot_table → reindex →
fillna(0)` is embedded by its counting semantics: each cell counts the
merged row pairs carrying the two values, over the Cartesian product of
the two sides' columns. -/

/-- A pandas `Series`: name (`none` when unnamed), named index levels,
and (index key, value) rows. -/
structure PSeries where
  sname : Option String
  indexNames : List (Option String)
  rows : List (List String × Option String)
deriving DecidableEq, Repr

/-- A pandas `DataFrame` of 0/1 indicator columns. -/
structure PFrame where
  colNames : List String
  indexNames : List (Option String)
  rows : List (List String × List Bool)
deriving DecidableEq, Repr

/-- Either argument shape accepted by `count_coincidences`. -/
inductive PData where
  | ser : PSeries → PData
  | frm : PFrame → PData
deriving DecidableEq, Repr

def PData.indexNames : PData → List (Option String)
  | .ser s => s.indexNames
  | .frm f => f.indexNames

/-- `isinstance(data.index, MultiIndex)`. -/
def PData.isMulti (d : PData) : Bool := 2 ≤ d.indexNames.length

/-- `data.index.name` of a simple (single-level) index. -/
def PData.indexName (d : PData) : Option String := d.indexNames.headD none

/-- The stream as a list of labelled columns.  A Series contributes its
own rows; each DataFrame column `col` is transformed by
`data[col].replace({1: col, 0: nan})` into a column whose values are
the column name (for 1) or NaN (for 0). -/
def PData.preparedCols : PData → List (List (List String × Option String))
  | .ser s => [s.rows]
  | .frm f =>
    f.colNames.enum.map (fun jc =>
      f.rows.map (fun r => (r.1, if r.2.getD jc.1 false then some jc.2 else none)))

/-- The validation block of `count_coincidences`: the two-Series
same-name check, then per-argument name checks (Series arguments only;
DataFrame arguments are transformed, not name-checked).  The source's
literal error strings are kept, including its misattributed
`data_1 must be named` message for an unnamed `data_2`. -/
def validateInputs (d1 d2 : PData) : Except String Unit := do
  match d1, d2 with
  | .ser s1, .ser s2 =>
    if s1.sname = s2.sname then
      Except.error "data_1 and data_2 must have different names if they are both Series"
    else Except.ok ()
  | _, _ => Except.ok ()
  match d1 with
  | .ser s1 =>
    if s1.sname = none then Except.error "data_1 must be named"
    else if d1.isMulti then
      if none ∈ s1.indexNames then
        Except.error "each index in data_1 MultiIndex must be named"
      else Except.ok ()
    else
      if d1.indexName = none then Except.error "data_1 index must be named"
      else Except.ok ()
  | .frm _ => Except.ok ()
  match d2 with
  | .ser s2 =>
    if s2.sname = none then Except.error "data_1 must be named"
    else if d2.isMulti then
      if none ∈ s2.indexNames then
        Except.error "each index in data_2 MultiIndex must be named"
      else Except.ok ()
    else
      if d2.indexName = none then Except.error "data_2 index must be named"
      else Except.ok ()
  | .frm _ => Except.ok ()

/-- The `index.droplevel` loop: keep only the index levels whose name
equals `keep` (the simple side's index name). -/
def reduceKey (names : List (Option String)) (keep : Option String)
    (key : List String) : List String :=
  ((names.zip key).filter (fun p => p.1 = keep)).map Prod.snd

def dropColsKeys (names : List (Option String)) (keep : Option String)
    (cols : List (List (List String × Option String))) :
    List (List (List String × Option String)) :=
  cols.map (fun c => c.map (fun r => (reduceKey names keep r.1, r.2)))

/-- `set(data_1.index.names) == set(data_2.index.names)`. -/
def sameNameSet (l1 l2 : List (Option String)) : Bool :=
  l1.all (fun x => x ∈ l2) && l2.all (fun x => x ∈ l1)

/-- The `drop indexes` block of `count_coincidences`: reconcile the two
index shapes, dropping redundant levels of the stacked side when the
other side is simple, or fail.  When both sides are stacked their level
name sets must coincide and the full key is kept; when both are simple
their single names must be identical. -/
def alignKeys (d1 d2 : PData) :
    Except String
      (List (List (List String × Option String)) ×
        List (List (List String × Option String))) :=
  if d1.isMulti && d2.isMulti then
    if sameNameSet d1.indexNames d2.indexNames then
      Except.ok (d1.preparedCols, d2.preparedCols)
    else
      Except.error "MultiIndexes for data_1 and data_2 must have the same names"
  else if !d1.isMulti && d2.isMulti then
    if d1.indexName ∈ d2.indexNames then
      Except.ok (d1.preparedCols,
        dropColsKeys d2.indexNames d1.indexName d2.preparedCols)
    else
      Except.error "Index name for data_1 must be one of MultiIndex names for data_2"
  else if d1.isMulti && !d2.isMulti then
    if d2.indexName ∈ d1.indexNames then
      Except.ok (dropColsKeys d1.indexNames d2.indexName d1.preparedCols,
        d2.preparedCols)
    else
      Except.error "Index name for data_2 must be one of MultiIndex names for data_1"
  else
    if d1.indexName = d2.indexName then
      Except.ok (d1.preparedCols, d2.preparedCols)
    else
      Except.error "Index names for data_1 and data_2 must be identical"

/-- Number of merged row pairs (outer join on the key; pairs with a NaN
on either side are dropped by the groupby) carrying values `(v1, v2)`,
for one column of each side. -/
def pairCount (rows1 rows2 : List (List String × Option String))
    (v1 v2 : String) : Nat :=
  (rows1.map (fun r1 =>
    (rows2.map (fun r2 =>
      if r1.1 = r2.1 ∧ r1.2 = some v1 ∧ r2.2 = some v2 then 1 else 0)).sum)).sum

/-- Cell count over the Cartesian product of the two sides' column
lists (`for d1, d2 in product(datas_1, datas_2)`, group sizes
concatenated and pivoted into a single table). -/
def coincidenceCount (cols1 cols2 : List (List (List String × Option String)))
    (v1 v2 : String) : Nat :=
  (cols1.map (fun c1 => (cols2.map (fun c2 => pairCount c1 c2 v1 v2)).sum)).sum

/-- The result of `count_coincidences`: rows are `column_2_order`
labels, columns are `column_1_order` labels (`reindex`), missing
combinations 0 (`fillna(0)`). -/
structure CTable where
  rowLabels : List String
  colLabels : List String
  cells : List (List Nat)
deriving DecidableEq, Repr

def count_coincidences (d1 d2 : PData) (column1 column2 : String)
    (column1Order column2Order : List String) : Except String CTable := do
  validateInputs d1 d2
  let p ← alignKeys d1 d2
  Except.ok
    { rowLabels := column2Order
      colLabels := column1Order
      cells := column2Order.map (fun v2 =>
        column1Order.map (fun v1 => coincidenceCount p.1 p.2 v1 v2)) }

/-! ### `create_cpt` / `create_jpt` (survey/utils/probability/prob_utils.py)

The float divisions are modelled over `ℚ` with `Option ℚ` cells:
`none` stands for the float NaN produced by the pandas division
`0 / 0` (a zero-count row divided by its zero row total in
`create_cpt`, or any cell divided by a zero grand total in
`create_jpt`; in both cases each dividend in such a division is
necessarily 0, because counts are bounded by the total). -/

structure PTable where
  rowLabels : List String
  colLabels : List String
  cells : List (List (Option ℚ))
deriving DecidableEq, Repr

/-- `cp_table.div(cp_table.sum(axis=1), axis=0)` on one row: divide
every count by the row total; a zero-total row only holds zero counts,
so the divisions there are `0 / 0 = NaN`. -/
def rowDiv (row : List Nat) : List (Option ℚ) :=
  row.map (fun (c : Nat) =>
    if row.sum = 0 then none else some ((c : ℚ) / (row.sum : ℚ)))

/-- Label-based selection (`df[[...]]` / `df.loc[[...]]`): the entry of
`row` under the first column whose label is `s`. -/
def colAt {β : Type} (labels : List String) (row : List β) (s : String) : Option β :=
  ((labels.zip row).find? (fun p => p.1 = s)).map Prod.snd

def create_cpt (probData condData : PData) (probName condName : String)
    (probOrder condOrder : List String) : Except String PTable := do
  if probName = condName then
    Except.error "prob_name must be different to cond_name"
  let t ← count_coincidences probData condData probName condName probOrder condOrder
  let divided := t.cells.map rowDiv
  let colSel := probOrder.filter (fun p => p ∈ t.colLabels)
  let rowSel := condOrder.filter (fun c => c ∈ t.rowLabels)
  let reRows := rowSel.filterMap (fun c => colAt t.rowLabels divided c)
  Except.ok
    { rowLabels := rowSel
      colLabels := colSel
      cells := reRows.map (fun row => colSel.filterMap (colAt t.colLabels row)) }

def create_jpt (data1 data2 : PData) (prob1Name prob2Name : String)
    (prob1Order prob2Order : List String) : Except String PTable := do
  if prob1Name = prob2Name then
    Except.error "prob_1_name must be different to prob_2_name"
  let t ← count_coincidences data1 data2 prob1Name prob2Name prob1Order prob2Order
  let total := (t.cells.map List.sum).sum
  Except.ok
    { rowLabels := t.rowLabels
      colLabels := t.colLabels
      cells := t.cells.map (fun (row : List Nat) => row.map (fun (c : Nat) =>
        if total = 0 then none else some ((c : ℚ) / (total : ℚ)))) }

/-- Concrete one-respondent streams used for the C4 witness. -/
def c4WitnessD1 : PData := .ser ⟨some "gender", [some "rid"], [(["1"], some "M")]⟩

def c4WitnessD2 : PData := .ser ⟨some "symptom", [some "rid"], [(["1"], some "cough")]⟩

def c4WitnessU : CTable := ⟨["cough", "fever"], ["M"], [[1], [0]]⟩

def c4WitnessT : PTable := ⟨["cough", "fever"], ["M"], [[some 1], [none]]⟩

/-- Concrete three-respondent streams (one missing symptom) reused by
several witnesses. -/
def genderData : PData :=
  .ser ⟨some "gender", [some "rid"],
    [(["1"], some "M"), (["2"], some "F"), (["3"], some "M")]⟩

def symptomData : PData :=
  .ser ⟨some "symptom", [some "rid"],
    [(["1"], some "cough"), (["2"], some "fever"), (["3"], none)]⟩

def genderSymptomCounts : CTable :=
  ⟨["cough", "fever"], ["M", "F"], [[1, 0], [0, 1]]⟩

def genderSymptomCpt : PTable :=
  ⟨["cough", "fever"], ["M", "F"], [[some 1, some 0], [some 0, some 1]]⟩

def genderSymptomJpt : PTable :=
  ⟨["cough", "fever"], ["M", "F"], [[some (1 / 2), some 0], [some 0, some (1 / 2)]]⟩

/-! ### `analyze_responses_by_attribute` and `prune_results`
(survey/utils/analysis.py), `match_all` (survey/utils/processing.py)

A pandas DataFrame column label is either a plain string or a 2-tuple
of strings: the `group_values=False` report of
`analyze_responses_by_attribute` builds its rows from dicts keyed by
tuples such as `('result', 'p_superior')`, so its columns are
tuple-labelled, while the `group_values=True` report uses flat string
labels.  A cell holds a Boolean, a rational (the probability results),
a string, or NaN (a dict key missing from some row).  A label lookup
that fails raises `KeyError`, modelled by `Except.error "KeyError"`.

The DataFrame index is modelled positionally on the sorted frame: index
labels are unique and `sort_values` carries them along with the rows,
so excluding the iterated row by its label (`exclude_ix=ix`) is
excluding it by its position in the sorted order. -/

inductive PLabel where
  | str : String → PLabel
  | pair : String → String → PLabel
deriving DecidableEq, Repr

inductive PCell where
  | b : Bool → PCell
  | q : ℚ → PCell
  | s : String → PCell
  | na : PCell
deriving DecidableEq, Repr

structure Report where
  cols : List PLabel
  rows : List (List PCell)
deriving DecidableEq, Repr

/-- The fields of the `survey.prob_superior(...)` result object that
`analyze_responses_by_attribute` reads. -/
structure ProbResult where
  p_superior : ℚ
  experimental_mean : ℚ
  control_mean : ℚ
deriving DecidableEq, Repr

/-- `CategoricalMixin.group_pairs` with no `ordered` override
(categorical_mixin.py lines 47-66): both branches call
`get_group_pairs(items=self.category_names, ordered=…,
include_empty=False)`, choosing `ordered` from the variable's own
`_ordered` flag. -/
def group_pairs (category_names : List String) (ordered : Bool) :
    List (List String × List String) :=
  if ordered then get_group_pairs category_names true false
  else get_group_pairs category_names false false

/-- The `group_values=False` column selection (analysis.py lines
92-99): every label is a tuple. -/
def resultReportCols (attribute_name : String)
    (attr_categories answer_categories : List String) : List PLabel :=
  [PLabel.pair "survey" "name", PLabel.pair "survey" "question"] ++
  attr_categories.map (fun v => PLabel.pair attribute_name v) ++
  answer_categories.map (fun a => PLabel.pair "answer" a) ++
  [PLabel.pair "result" "p_superior",
   PLabel.pair "result" "exp_mean - ctl_mean",
   PLabel.pair "result" "exp_mean",
   PLabel.pair "result" "ctl_mean"]

/-- The `group_values=True` column selection (analysis.py lines 85-90):
flat string labels. -/
def groupedReportColNames : List String :=
  ["survey_name", "survey_question", "attribute_name",
   "attr_vals_experimental", "attr_vals_control",
   "answers_given", "answers_not_given",
   "p_superior", "exp_mean - ctl_mean", "exp_mean", "ctl_mean"]

def groupedReportCols : List PLabel := groupedReportColNames.map PLabel.str

/-- `join_str.join(items)` with the default `join_str = ' || '`. -/
def joinStr (items : List String) : String :=
  String.intercalate " || " items

/-- `analyze_responses_by_attribute(survey, question, attribute,
group_values)` (analysis.py lines 10-101): one row per element of
`product(attribute.group_pairs(), question.group_pairs())`, laid out by
the final column selection.  `prob` stands for `survey.prob_superior`
as a function of the attribute pair and the answer pair.  In a
`group_values=False` row, the cell under `(attribute.name, v)` is
`True` for `v` in `attrs_exp`, `False` for `v` in `attrs_ctl`, and NaN
otherwise (unreachable here since every group pair partitions the
categories); likewise for the `('answer', a)` cells. -/
def analyze_responses_by_attribute
    (survey_name question_name attribute_name : String)
    (attr_categories answer_categories : List String)
    (attr_ordered answer_ordered : Bool)
    (prob : List String × List String → List String × List String → ProbResult)
    (group_values : Bool) : Report :=
  let combos := (group_pairs attr_categories attr_ordered).product
    (group_pairs answer_categories answer_ordered)
  if group_values then
    ⟨groupedReportCols,
      combos.map (fun c =>
        let r := prob c.1 c.2
        [PCell.s survey_name, PCell.s question_name, PCell.s attribute_name,
         PCell.s (joinStr c.1.1), PCell.s (joinStr c.1.2),
         PCell.s (joinStr c.2.1), PCell.s (joinStr c.2.2),
         PCell.q r.p_superior,
         PCell.q (r.experimental_mean - r.control_mean),
         PCell.q r.experimental_mean, PCell.q r.control_mean])⟩
  else
    ⟨resultReportCols attribute_name attr_categories answer_categories,
      combos.map (fun c =>
        let r := prob c.1 c.2
        [PCell.s survey_name, PCell.s question_name] ++
        attr_categories.map (fun v =>
          if v ∈ c.1.1 then PCell.b true
          else if v ∈ c.1.2 then PCell.b false else PCell.na) ++
        answer_categories.map (fun a =>
          if a ∈ c.2.1 then PCell.b true
          else if a ∈ c.2.2 then PCell.b false else PCell.na) ++
        [PCell.q r.p_superior,
         PCell.q (r.experimental_mean - r.control_mean),
         PCell.q r.experimental_mean, PCell.q r.control_mean])⟩

/-- Ascending comparison of two cells as pandas sorts them; only the
rational/rational case matters, since the `p_superior` column of a
computed report is numeric throughout. -/
def cellLe (a b : PCell) : Bool :=
  match a, b with
  | PCell.q x, PCell.q y => decide (x ≤ y)
  | _, _ => true

/-- `results.sort_values(label, ascending=False)`: sorting by a column
label that is absent raises `KeyError` (prune_results passes the bare
string `'p_superior'`, analysis.py line 114). -/
def sort_values (results : Report) (label : PLabel) : Except String Report :=
  match results.cols.findIdx? (fun c => decide (c = label)) with
  | none => Except.error "KeyError"
  | some j => Except.ok ⟨results.cols,
      results.rows.insertionSort (fun r1 r2 =>
        cellLe (r2.getD j PCell.na) (r1.getD j PCell.na) = true)⟩

/-- `row[labels].to_dict()` on a Series `row` indexed by `cols`: pandas
1.0 and later raise `KeyError` when a requested label is missing; in
the earlier lenient mode the missing labels survive into the dict and
`KeyError` is raised by `match_all`'s `data[key]` instead, so the error
point below stands for both. -/
def rowSelect (cols : List PLabel) (row : List PCell) (labels : List PLabel) :
    Except String (List (PLabel × PCell)) :=
  labels.mapM (fun k =>
    match cols.findIdx? (fun c => decide (c = k)) with
    | none => Except.error "KeyError"
    | some j => Except.ok (k, row.getD j PCell.na))

/-- `match_all(data, match, exclude_ix)` (processing.py lines 55-74):
start from all-`True`, conjoin `data[key] == value` for every dict
entry (`data[key]` raises `KeyError` on a missing column), then force
the excluded index to `False`. -/
def match_all (data : Report) (m : List (PLabel × PCell))
    (exclude_ix : Option Nat) : Except String (List Bool) := do
  let ix ← m.foldlM
    (fun (acc : List Bool) kv =>
      match data.cols.findIdx? (fun c => decide (c = kv.1)) with
      | none => Except.error "KeyError"
      | some j => Except.ok (List.zipWith
          (fun b row => b && decide (row.getD j PCell.na = kv.2))
          acc data.rows))
    (List.replicate data.rows.length true)
  match exclude_ix with
  | none => Except.ok ix
  | some i => Except.ok (ix.set i false)

/-- `prune_results(results, question, attribute)` (analysis.py lines
104-127): sort by the bare label `'p_superior'` descending, then for
each row mark for dropping every other row that matches this row's
values in the attribute-category columns and all of this row's `True`
answer-category cells, and finally return the unmarked rows.
`answer_categories` is `question.category_names` and `attr_categories`
is `attribute.categories`. -/
def prune_results (results : Report)
    (answer_categories attr_categories : List String) :
    Except String Report := do
  let sorted ← sort_values results (PLabel.str "p_superior")
  let ixDrop ← (List.range sorted.rows.length).foldlM
    (fun (ixDrop : List Bool) ix => do
      let row := sorted.rows.getD ix []
      let used_values ← rowSelect sorted.cols row
        (attr_categories.map PLabel.str)
      let ixSameRespVals ← match_all sorted used_values (some ix)
      let rowAnswers ← rowSelect sorted.cols row
        (answer_categories.map PLabel.str)
      let used_answers := rowAnswers.filter
        (fun kv => decide (kv.2 = PCell.b true))
      let ixContainsAnswers ← match_all sorted used_answers (some ix)
      Except.ok (List.zipWith (fun d p => d || (p.1 && p.2)) ixDrop
        (List.zip ixSameRespVals ixContainsAnswers)))
    (List.replicate sorted.rows.length false)
  Except.ok ⟨sorted.cols,
    ((List.zip sorted.rows ixDrop).filter (fun p => !p.2)).map Prod.fst⟩

/-- Oracle standing for `survey.prob_superior` in the concrete C3
instance: a constant result. -/
def pruneProb :
    List String × List String → List String × List String → ProbResult :=
  fun _ _ => ⟨9 / 10, 1 / 2, 1 / 4⟩

/-- The concrete `group_values=False` comparison report of the C3
counterexample: attribute categories `m`, `f`; answer categories `y`,
`n`, `w`; twelve rows. -/
def pruneReportUngrouped : Report :=
  analyze_responses_by_attribute "s" "q" "gender" ["m", "f"] ["y", "n", "w"]
    false false pruneProb false

/-- The same analysis with `group_values=True`. -/
def pruneReportGrouped : Report :=
  analyze_responses_by_attribute "s" "q" "gender" ["m", "f"] ["y", "n", "w"]
    false false pruneProb true

/-! ### `SingleCategorySignificanceMixin`
(survey/mixins/data_types/single_category_significance_mixin.py)

The categorical data is a list of answers, `none` for a missing (NaN)
answer.  Only the `(n, k)` parameters handed to
`BetaBinomialConjugate(alpha=1, beta=1, n=.., k=..)` are embedded; the
Beta–Binomial posterior comparison consuming them is
continuous-distribution arithmetic from the external `probability`
package and is outside the claims. -/

/-- `self.data.value_counts()[category]` with the `KeyError → 0`
fallback (`value_counts` ignores NaN). -/
def valueCount (data : List (Option String)) (category : String) : Nat :=
  (data.filter (fun v => v == some category)).length

/-- The per-category `(n, k)` pairs of `significance_one_vs_all`: both
beliefs use `n = len(self.data.dropna())`, the number of non-missing
answers; `k` is the category count resp. `n - k` for the pooled rest. -/
def significanceOneVsAllParams (categories : List String)
    (data : List (Option String)) : List (String × (Nat × Nat) × (Nat × Nat)) :=
  categories.map (fun category =>
    let categoryCount := valueCount data category
    let numResponses := (data.filterMap id).length
    (category, (numResponses, categoryCount),
      (numResponses, numResponses - categoryCount)))

/-- The per-category parameters of `significance_one_vs_any`:
`n_one = n_any = len(self.data)`, missing answers included; `m_one` is
the category count and `m_any` the mean count of the other categories
(a float mean, exact over `ℚ`; for a single-category variable the
pandas mean of an empty selection is NaN, modelled here by the `ℚ`
convention `x / 0 = 0` — no claim touches that degenerate case). -/
def significanceOneVsAnyParams (categories : List String)
    (data : List (Option String)) : List (String × (Nat × ℚ) × (Nat × ℚ)) :=
  categories.map (fun category =>
    let anys := categories.filter (fun c => !(c == category))
    let nOne := data.length
    let mOne := valueCount data category
    let nAny := data.length
    let mAny := (((anys.map (fun c => valueCount data c)).sum : ℕ) : ℚ) /
      (anys.length : ℚ)
    (category, (nOne, (mOne : ℚ)), (nAny, mAny)))

/-! ### Theorems: claim verdicts and supporting lemmas -/

example :
    get_group_pairs ["a", "b", "c", "d"] false false =
      [(["a", "b", "c"], ["d"]),
       (["a", "b", "d"], ["c"]),
       (["a", "b"], ["c", "d"]),
       (["a", "c", "d"], ["b"]),
       (["a", "c"], ["b", "d"]),
       (["a", "d"], ["b", "c"]),
       (["a"], ["b", "c", "d"]),
       (["b", "c", "d"], ["a"]),
       (["b", "c"], ["a", "d"]),
       (["b", "d"], ["a", "c"]),
       (["b"], ["a", "c", "d"]),
       (["c", "d"], ["a", "b"]),
       (["c"], ["a", "b", "d"]),
       (["d"], ["a", "b", "c"])] := by decide

example :
    get_group_pairs ["a", "b", "c", "d"] true false =
      [(["a", "b", "c"], ["d"]),
       (["a", "b"], ["c", "d"]),
       (["a"], ["b", "c", "d"]),
       (["b", "c", "d"], ["a"]),
       (["c", "d"], ["a", "b"]),
       (["d"], ["a", "b", "c"])] := by decide

theorem lbits_length (n i : Nat) : (lbits n i).length = n := by
  induction n generalizing i with
  | zero => rfl
  | succ n ih => simp [lbits, ih]

theorem bits_length (n i : Nat) : (bits n i).length = n := by
  simp [bits, lbits_length]

theorem mem_lbits_lt_two {n i b : Nat} (h : b ∈ lbits n i) : b < 2 := by
  induction n generalizing i with
  | zero => simp [lbits] at h
  | succ n ih =>
    simp only [lbits, List.mem_cons] at h
    rcases h with h | h
    · omega
    · exact ih h

theorem mem_bits_lt_two {n i b : Nat} (h : b ∈ bits n i) : b < 2 :=
  mem_lbits_lt_two (List.mem_reverse.mp h)

theorem ofLbits_lbits {n i : Nat} (h : i < 2 ^ n) : ofLbits (lbits n i) = i := by
  induction n generalizing i with
  | zero =>
    have h1 : i = 0 := by simpa [Nat.lt_one_iff] using h
    subst h1
    rfl
  | succ n ih =>
    have hdiv : i / 2 < 2 ^ n := by
      rw [Nat.div_lt_iff_lt_mul (by omega)]
      calc i < 2 ^ (n + 1) := h
        _ = 2 ^ n * 2 := by rw [Nat.pow_succ]
    simp [lbits, ofLbits, ih hdiv]
    omega

theorem lbits_ofLbits {L : List Nat} (h : ∀ b ∈ L, b < 2) :
    lbits L.length (ofLbits L) = L := by
  induction L with
  | nil => rfl
  | cons b bs ih =>
    have hb : b < 2 := h b (List.mem_cons_self _ _)
    have hmod : (b + 2 * ofLbits bs) % 2 = b := by omega
    have hdiv : (b + 2 * ofLbits bs) / 2 = ofLbits bs := by omega
    simp only [List.length_cons, lbits, ofLbits, hmod, hdiv]
    rw [ih (fun x hx => h x (List.mem_cons_of_mem _ hx))]

theorem ofLbits_append (xs ys : List Nat) :
    ofLbits (xs ++ ys) = ofLbits xs + 2 ^ xs.length * ofLbits ys := by
  induction xs with
  | nil => simp [ofLbits]
  | cons b bs ih =>
    rw [List.cons_append]
    show b + 2 * ofLbits (bs ++ ys) =
      (b + 2 * ofLbits bs) + 2 ^ (bs.length + 1) * ofLbits ys
    rw [ih, Nat.pow_succ]
    ring

theorem ofLbits_replicate_zero (z : Nat) : ofLbits (List.replicate z 0) = 0 := by
  induction z with
  | zero => rfl
  | succ z ih => simp [List.replicate, ofLbits, ih]

theorem ofLbits_replicate_one (m : Nat) : ofLbits (List.replicate m 1) = 2 ^ m - 1 := by
  induction m with
  | zero => rfl
  | succ m ih =>
    have h1 : 1 ≤ 2 ^ m := Nat.one_le_two_pow
    simp only [List.replicate, ofLbits, ih, Nat.pow_succ]
    omega

/-- Bit string of a threshold value `2 ^ m - 1`: zeros then ones. -/
theorem bits_two_pow_sub_one {m n : Nat} (h : m ≤ n) :
    bits n (2 ^ m - 1) =
      List.replicate (n - m) 0 ++ List.replicate m 1 := by
  have hvals : ofLbits (List.replicate m 1 ++ List.replicate (n - m) 0) = 2 ^ m - 1 := by
    rw [ofLbits_append, ofLbits_replicate_one, ofLbits_replicate_zero]
    omega
  have hlen : (List.replicate m 1 ++ List.replicate (n - m) 0).length = n := by
    simp; omega
  have hmem : ∀ b ∈ List.replicate m 1 ++ List.replicate (n - m) 0, b < 2 := by
    intro b hb
    rcases List.mem_append.mp hb with hb2 | hb2
    · have := List.eq_of_mem_replicate hb2; omega
    · have := List.eq_of_mem_replicate hb2; omega
  have := lbits_ofLbits hmem
  rw [hlen, hvals] at this
  rw [bits, this, List.reverse_append, List.reverse_replicate, List.reverse_replicate]

/-- Bit string of a threshold value `2 ^ n - 2 ^ m`: ones then zeros. -/
theorem bits_two_pow_sub_two_pow {m n : Nat} (h : m ≤ n) :
    bits n (2 ^ n - 2 ^ m) =
      List.replicate (n - m) 1 ++ List.replicate m 0 := by
  have hpow : 2 ^ m * 2 ^ (n - m) = 2 ^ n := by
    rw [← Nat.pow_add]
    congr 1
    omega
  have hvals : ofLbits (List.replicate m 0 ++ List.replicate (n - m) 1) = 2 ^ n - 2 ^ m := by
    rw [ofLbits_append, ofLbits_replicate_one, ofLbits_replicate_zero]
    simp only [List.length_replicate, Nat.zero_add]
    have h1 : 1 ≤ 2 ^ (n - m) := Nat.one_le_two_pow
    calc 2 ^ m * (2 ^ (n - m) - 1) = 2 ^ m * 2 ^ (n - m) - 2 ^ m := by
          rw [Nat.mul_sub, Nat.mul_one]
      _ = 2 ^ n - 2 ^ m := by rw [hpow]
  have hlen : (List.replicate m 0 ++ List.replicate (n - m) 1).length = n := by
    simp; omega
  have hmem : ∀ b ∈ List.replicate m 0 ++ List.replicate (n - m) 1, b < 2 := by
    intro b hb
    rcases List.mem_append.mp hb with hb2 | hb2
    · have := List.eq_of_mem_replicate hb2; omega
    · have := List.eq_of_mem_replicate hb2; omega
  have := lbits_ofLbits hmem
  rw [hlen, hvals] at this
  rw [bits, this, List.reverse_append, List.reverse_replicate, List.reverse_replicate]

theorem ofLbits_ones_zeros (k z : Nat) :
    ofLbits (List.replicate k 1 ++ List.replicate z 0) = 2 ^ k - 1 := by
  simp [ofLbits_append, ofLbits_replicate_one, ofLbits_replicate_zero]

theorem ofLbits_zeros_ones (z k : Nat) :
    ofLbits (List.replicate z 0 ++ List.replicate k 1) = 2 ^ (z + k) - 2 ^ z := by
  rw [ofLbits_append, ofLbits_replicate_zero, ofLbits_replicate_one,
    List.length_replicate, Nat.zero_add, Nat.mul_sub, Nat.mul_one, ← Nat.pow_add]

theorem count_zero_add_count_one {s : List Nat} (h : ∀ b ∈ s, b < 2) :
    s.count 0 + s.count 1 = s.length := by
  induction s with
  | nil => rfl
  | cons b bs ih =>
    have hb : b = 0 ∨ b = 1 := by
      have := h b (List.mem_cons_self _ _)
      omega
    have ihh := ih (fun x hx => h x (List.mem_cons_of_mem _ hx))
    rcases hb with hb | hb <;> subst hb <;> simp [List.count_cons] <;> omega

/-- A 0/1 list whose first `count a` entries are all `a` is `a`s followed
by `b`s; and conversely. This captures the `zeros_left`/`ones_left` test
of `get_group_pairs`. -/
theorem take_count_eq_iff {a b : Nat} (hab : a ≠ b) {s : List Nat}
    (hmem : ∀ x ∈ s, x = a ∨ x = b) :
    (0 < (s.take (s.count a)).count a ∧ (s.take (s.count a)).count a = s.count a) ↔
      ∃ k, 0 < k ∧ k ≤ s.length ∧
        s = List.replicate k a ++ List.replicate (s.length - k) b := by
  constructor
  · rintro ⟨hpos, heq⟩
    have hkle : s.count a ≤ s.length := List.count_le_length a s
    have hlen_take : (s.take (s.count a)).length = s.count a := by
      rw [List.length_take]
      omega
    have htake : s.take (s.count a) = List.replicate (s.count a) a := by
      refine List.eq_replicate_iff.mpr ⟨hlen_take, ?_⟩
      intro x hx
      exact (List.count_eq_length.mp (heq.trans hlen_take.symm) x hx).symm
    have hcnt : s.count a = (s.take (s.count a)).count a + (s.drop (s.count a)).count a := by
      conv_lhs => rw [← List.take_append_drop (s.count a) s]
      rw [List.count_append]
    have hdrop0 : (s.drop (s.count a)).count a = 0 := by omega
    have hnot : a ∉ s.drop (s.count a) := List.count_eq_zero.mp hdrop0
    have hdrop : s.drop (s.count a) = List.replicate (s.length - s.count a) b := by
      refine List.eq_replicate_iff.mpr ⟨by rw [List.length_drop], ?_⟩
      intro x hx
      rcases hmem x (List.mem_of_mem_drop hx) with h | h
      · exact absurd (h ▸ hx) hnot
      · exact h
    refine ⟨s.count a, by omega, hkle, ?_⟩
    conv_lhs => rw [← List.take_append_drop (s.count a) s]
    rw [htake, hdrop]
  · rintro ⟨k, hk0, hkle, hs⟩
    have hca : (List.replicate k a).count a = k := by
      rw [List.count_replicate]
      simp
    have hcb : (List.replicate (s.length - k) b).count a = 0 := by
      rw [List.count_replicate]
      simp [Ne.symm hab]
    have hcount : s.count a = k := by
      conv_lhs => rw [hs]
      rw [List.count_append, hca, hcb]
      omega
    have htake : s.take (s.count a) = List.replicate k a := by
      rw [hcount]
      conv_lhs => rw [hs]
      exact List.take_left' (by simp)
    rw [htake, hca, hcount]
    exact ⟨hk0, rfl⟩

/-- The `ordered` filter of `get_group_pairs` accepts exactly the bit
strings that are a block of zeros followed by ones, or ones followed by
zeros (with the leading block nonempty). -/
theorem orderedCond_iff_pattern (n i : Nat) :
    orderedCond n i = true ↔
      (∃ z, 0 < z ∧ z ≤ n ∧ bits n i = List.replicate z 0 ++ List.replicate (n - z) 1) ∨
      (∃ o, 0 < o ∧ o ≤ n ∧ bits n i = List.replicate o 1 ++ List.replicate (n - o) 0) := by
  have hlen : (bits n i).length = n := bits_length n i
  have hmem : ∀ x ∈ bits n i, x = 0 ∨ x = 1 := by
    intro x hx
    have := mem_bits_lt_two hx
    omega
  have hsum : (bits n i).count 0 + (bits n i).count 1 = n := by
    have hcc := count_zero_add_count_one
      (s := bits n i) (fun x hx => by rcases hmem x hx with h | h <;> omega)
    rw [hlen] at hcc
    exact hcc
  have hzo := take_count_eq_iff (show (0 : Nat) ≠ 1 by omega) hmem
  have hoz := take_count_eq_iff (show (1 : Nat) ≠ 0 by omega)
    (fun x hx => (hmem x hx).symm)
  rw [hlen] at hzo hoz
  have hnum : n - (bits n i).count 0 = (bits n i).count 1 := by omega
  simp only [orderedCond, Bool.or_eq_true, Bool.and_eq_true, decide_eq_true_eq]
  rw [hnum]
  exact or_congr hzo hoz

/-- Value form of `orderedCond` in the iteration range: the accepted
loop counters are exactly `2 ^ m - 1` and `2 ^ n - 2 ^ m` for
`1 ≤ m ≤ n - 1`. -/
theorem orderedCond_iff_threshold {n i : Nat} (h1 : 1 ≤ i) (h2 : i ≤ 2 ^ n - 2) :
    orderedCond n i = true ↔
      ∃ m, 1 ≤ m ∧ m < n ∧ (i = 2 ^ m - 1 ∨ i = 2 ^ n - 2 ^ m) := by
  have hn : 2 ≤ n := by
    rcases Nat.lt_or_ge n 2 with hlt | hge
    · exfalso
      have hb : 2 ^ n ≤ 2 := by
        calc 2 ^ n ≤ 2 ^ 1 := Nat.pow_le_pow_right (by norm_num) (by omega)
          _ = 2 := by norm_num
      omega
    · exact hge
  have h4 : 4 ≤ 2 ^ n := by
    calc (4 : Nat) = 2 ^ 2 := by norm_num
      _ ≤ 2 ^ n := Nat.pow_le_pow_right (by norm_num) hn
  have hi : i < 2 ^ n := by omega
  rw [orderedCond_iff_pattern]
  constructor
  · rintro (⟨z, hz0, hzn, hpat⟩ | ⟨o, ho0, hon, hpat⟩)
    · have hlb : lbits n i = List.replicate (n - z) 1 ++ List.replicate z 0 := by
        have hrev : (bits n i).reverse = lbits n i := by
          rw [bits, List.reverse_reverse]
        rw [← hrev, hpat, List.reverse_append, List.reverse_replicate,
          List.reverse_replicate]
      have hval : i = 2 ^ (n - z) - 1 := by
        have hof := ofLbits_lbits hi
        rw [hlb, ofLbits_ones_zeros] at hof
        omega
      refine ⟨n - z, ?_, by omega, Or.inl hval⟩
      by_contra hm
      have h0 : n - z = 0 := by omega
      rw [h0] at hval
      norm_num at hval
      omega
    · have hlb : lbits n i = List.replicate (n - o) 0 ++ List.replicate o 1 := by
        have hrev : (bits n i).reverse = lbits n i := by
          rw [bits, List.reverse_reverse]
        rw [← hrev, hpat, List.reverse_append, List.reverse_replicate,
          List.reverse_replicate]
      have hval : i = 2 ^ n - 2 ^ (n - o) := by
        have hof := ofLbits_lbits hi
        rw [hlb, ofLbits_zeros_ones] at hof
        have hno : n - o + o = n := by omega
        rw [hno] at hof
        omega
      refine ⟨n - o, ?_, by omega, Or.inr hval⟩
      by_contra hm
      have h0 : n - o = 0 := by omega
      rw [h0] at hval
      norm_num at hval
      omega
  · rintro ⟨m, hm1, hmn, hval | hval⟩
    · left
      refine ⟨n - m, by omega, by omega, ?_⟩
      have hnm : n - (n - m) = m := by omega
      rw [hnm]
      rw [hval]
      exact bits_two_pow_sub_one (by omega)
    · right
      refine ⟨n - m, by omega, by omega, ?_⟩
      have hnm : n - (n - m) = m := by omega
      rw [hnm]
      rw [hval]
      exact bits_two_pow_sub_two_pow (by omega)

/-- Exactly `2 * (n - 1)` loop counters pass the `ordered` filter. -/
theorem filter_orderedCond_length (n : Nat) :
    ((List.range' 1 (2 ^ n - 2)).filter (orderedCond n)).length = 2 * (n - 1) := by
  have hbridge :
      ((List.range' 1 (2 ^ n - 2)).filter (orderedCond n)).length =
        ((Finset.Ico 1 (2 ^ n - 1)).filter (fun i => orderedCond n i = true)).card := by
    have hn2 : (2 ^ n - 1) - 1 = 2 ^ n - 2 := by omega
    rw [Nat.Ico_eq_range', hn2]
    simp [Finset.filter, Finset.card]
  have himg :
      (Finset.Ico 1 (2 ^ n - 1)).filter (fun i => orderedCond n i = true) =
        ((Finset.Ico 1 n).image (fun m => 2 ^ m - 1)) ∪
          ((Finset.Ico 1 n).image (fun m => 2 ^ n - 2 ^ m)) := by
    ext i
    simp only [Finset.mem_filter, Finset.mem_union, Finset.mem_image, Finset.mem_Ico]
    constructor
    · rintro ⟨⟨h1i, h2i⟩, hcond⟩
      have hchar := (orderedCond_iff_threshold h1i (by omega)).mp hcond
      rcases hchar with ⟨m, hm1, hm2, hval | hval⟩
      · exact Or.inl ⟨m, ⟨hm1, hm2⟩, hval.symm⟩
      · exact Or.inr ⟨m, ⟨hm1, hm2⟩, hval.symm⟩
    · intro h
      have hbnd : ∀ m, 1 ≤ m → m < n → 2 ≤ 2 ^ m ∧ 2 ^ m < 2 ^ n ∧ 4 ≤ 2 ^ n := by
        intro m hm1 hm2
        refine ⟨?_, ?_, ?_⟩
        · calc (2 : Nat) = 2 ^ 1 := by norm_num
            _ ≤ 2 ^ m := Nat.pow_le_pow_right (by norm_num) hm1
        · exact Nat.pow_lt_pow_right (by norm_num) hm2
        · calc (4 : Nat) = 2 ^ 2 := by norm_num
            _ ≤ 2 ^ n := Nat.pow_le_pow_right (by norm_num) (by omega)
      rcases h with ⟨m, ⟨hm1, hm2⟩, hval⟩ | ⟨m, ⟨hm1, hm2⟩, hval⟩
      · obtain ⟨hb1, hb2, hb3⟩ := hbnd m hm1 hm2
        refine ⟨⟨by omega, by omega⟩, ?_⟩
        exact (orderedCond_iff_threshold (by omega) (by omega)).mpr
          ⟨m, hm1, hm2, Or.inl hval.symm⟩
      · obtain ⟨hb1, hb2, hb3⟩ := hbnd m hm1 hm2
        refine ⟨⟨by omega, by omega⟩, ?_⟩
        exact (orderedCond_iff_threshold (by omega) (by omega)).mpr
          ⟨m, hm1, hm2, Or.inr hval.symm⟩
  have hinj1 : Set.InjOn (fun m => 2 ^ m - 1) (Finset.Ico 1 n) := by
    intro x hx y hy hxy
    have hx1 : 1 ≤ 2 ^ x := Nat.one_le_two_pow
    have hy1 : 1 ≤ 2 ^ y := Nat.one_le_two_pow
    have hpe : (2 : Nat) ^ x = 2 ^ y := by
      simp only at hxy
      omega
    exact Nat.pow_right_injective (le_refl 2) hpe
  have hinj2 : Set.InjOn (fun m => 2 ^ n - 2 ^ m) (Finset.Ico 1 n) := by
    intro x hx y hy hxy
    simp only [Finset.coe_Ico, Set.mem_Ico] at hx hy
    have hxn : 2 ^ x < 2 ^ n := Nat.pow_lt_pow_right (by norm_num) hx.2
    have hyn : 2 ^ y < 2 ^ n := Nat.pow_lt_pow_right (by norm_num) hy.2
    have hpe : (2 : Nat) ^ x = 2 ^ y := by
      simp only at hxy
      omega
    exact Nat.pow_right_injective (le_refl 2) hpe
  have hdisj : Disjoint ((Finset.Ico 1 n).image (fun m => 2 ^ m - 1))
      ((Finset.Ico 1 n).image (fun m => 2 ^ n - 2 ^ m)) := by
    rw [Finset.disjoint_left]
    rintro x hx1 hx2
    rcases Finset.mem_image.mp hx1 with ⟨a, ha, hax⟩
    rcases Finset.mem_image.mp hx2 with ⟨b, hb, hbx⟩
    rw [Finset.mem_Ico] at ha hb
    have ha2 : 2 ^ a = 2 * 2 ^ (a - 1) := by
      conv_lhs => rw [show a = (a - 1) + 1 by omega]
      rw [Nat.pow_succ]
      ring
    have hb2 : 2 ^ b = 2 * 2 ^ (b - 1) := by
      conv_lhs => rw [show b = (b - 1) + 1 by omega]
      rw [Nat.pow_succ]
      ring
    have hn2 : 2 ^ n = 2 * 2 ^ (n - 1) := by
      conv_lhs => rw [show n = (n - 1) + 1 by omega]
      rw [Nat.pow_succ]
      ring
    have hA : 1 ≤ 2 ^ (a - 1) := Nat.one_le_two_pow
    have hBN : 2 ^ (b - 1) ≤ 2 ^ (n - 1) :=
      Nat.pow_le_pow_right (by norm_num) (by omega)
    omega
  rw [hbridge, himg, Finset.card_union_of_disjoint hdisj,
    Finset.card_image_of_injOn hinj1, Finset.card_image_of_injOn hinj2, Nat.card_Ico]
  omega

/-- `_get_groups` on an all-ones bit string puts everything in group 1. -/
theorem getGroups_replicate_one {α : Type} (m : Nat) (xs : List α) (h : xs.length = m) :
    getGroups (List.replicate m 1) xs = ([], xs) := by
  induction m generalizing xs with
  | zero =>
    cases xs with
    | nil => rfl
    | cons x xs => simp at h
  | succ m ih =>
    cases xs with
    | nil => simp at h
    | cons x xs =>
      have hx : xs.length = m := by simpa using h
      simp [List.replicate_succ, getGroups, ih xs hx]

/-- `_get_groups` on an all-zeros bit string puts everything in group 0. -/
theorem getGroups_replicate_zero {α : Type} (m : Nat) (xs : List α) (h : xs.length = m) :
    getGroups (List.replicate m 0) xs = (xs, []) := by
  induction m generalizing xs with
  | zero =>
    cases xs with
    | nil => rfl
    | cons x xs => simp at h
  | succ m ih =>
    cases xs with
    | nil => simp at h
    | cons x xs =>
      have hx : xs.length = m := by simpa using h
      simp [List.replicate_succ, getGroups, ih xs hx]

/-- Zeros-then-ones bit strings carve the item list at a threshold. -/
theorem getGroups_zeros_ones {α : Type} (z m : Nat) (xs : List α)
    (h : xs.length = z + m) :
    getGroups (List.replicate z 0 ++ List.replicate m 1) xs = (xs.take z, xs.drop z) := by
  induction z generalizing xs with
  | zero =>
    simp only [List.replicate, List.nil_append]
    rw [getGroups_replicate_one m xs (by omega)]
    simp
  | succ z ih =>
    cases xs with
    | nil =>
      simp at h
      omega
    | cons x xs =>
      have hx : xs.length = z + m := by
        simp at h
        omega
      simp [List.replicate_succ, getGroups, ih xs hx]

/-- Ones-then-zeros bit strings carve the item list at a threshold,
with the groups swapped. -/
theorem getGroups_ones_zeros {α : Type} (o m : Nat) (xs : List α)
    (h : xs.length = o + m) :
    getGroups (List.replicate o 1 ++ List.replicate m 0) xs = (xs.drop o, xs.take o) := by
  induction o generalizing xs with
  | zero =>
    simp only [List.replicate, List.nil_append]
    rw [getGroups_replicate_zero m xs (by omega)]
    simp
  | succ o ih =>
    cases xs with
    | nil =>
      simp at h
      omega
    | cons x xs =>
      have hx : xs.length = o + m := by
        simp at h
        omega
      simp [List.replicate_succ, getGroups, ih xs hx]

theorem get_group_pairs_false_false {α : Type} (items : List α) :
    get_group_pairs items false false =
      (List.range' 1 (2 ^ items.length - 2)).map
        (fun i => getGroups (bits items.length i) items) := by
  have h1 : 1 ≤ 2 ^ items.length := Nat.one_le_two_pow
  have he : (2 ^ items.length - 1) - 1 = 2 ^ items.length - 2 := by omega
  simp [get_group_pairs, he]

theorem get_group_pairs_true_false {α : Type} (items : List α) :
    get_group_pairs items true false =
      ((List.range' 1 (2 ^ items.length - 2)).filter (orderedCond items.length)).map
        (fun i => getGroups (bits items.length i) items) := by
  have h1 : 1 ≤ 2 ^ items.length := Nat.one_le_two_pow
  have he : (2 ^ items.length - 1) - 1 = 2 ^ items.length - 2 := by omega
  simp [get_group_pairs, he]

/-- **C1** For every list of N distinct labels, `get_group_pairs` with
`include_empty=False` returns exactly `2 ^ N - 2` group pairs when
`ordered=False` and exactly `2 * (N - 1)` group pairs when
`ordered=True`; in the ordered case every returned pair is a contiguous
threshold cut of the label sequence. -/
theorem c1_partition_counts {α : Type} (items : List α) (hnd : items.Nodup) :
    (get_group_pairs items false false).length = 2 ^ items.length - 2 ∧
    (get_group_pairs items true false).length = 2 * (items.length - 1) ∧
    ∀ p ∈ get_group_pairs items true false,
      ∃ k, 0 < k ∧ k < items.length ∧
        (p = (items.take k, items.drop k) ∨ p = (items.drop k, items.take k)) := by
  refine ⟨?_, ?_, ?_⟩
  · rw [get_group_pairs_false_false]
    simp [List.length_range']
  · rw [get_group_pairs_true_false, List.length_map]
    exact filter_orderedCond_length items.length
  · intro p hp
    rw [get_group_pairs_true_false] at hp
    rcases List.mem_map.mp hp with ⟨i, hmem2, hpe⟩
    rcases List.mem_filter.mp hmem2 with ⟨hir, hic⟩
    rw [List.mem_range'_1] at hir
    have hP : 1 ≤ 2 ^ items.length := Nat.one_le_two_pow
    have h1i : 1 ≤ i := hir.1
    have h2i : i ≤ 2 ^ items.length - 2 := by
      have := hir.2
      omega
    rcases (orderedCond_iff_threshold h1i h2i).mp hic with ⟨m, hm1, hm2, hval | hval⟩
    · refine ⟨items.length - m, by omega, by omega, Or.inl ?_⟩
      rw [← hpe, hval, bits_two_pow_sub_one (show m ≤ items.length by omega)]
      exact getGroups_zeros_ones _ _ items (by omega)
    · refine ⟨items.length - m, by omega, by omega, Or.inr ?_⟩
      rw [← hpe, hval, bits_two_pow_sub_two_pow (show m ≤ items.length by omega)]
      exact getGroups_ones_zeros _ _ items (by omega)

/-- Witness for C1 at the concrete label list `["a", "b", "c"]`. -/
theorem c1_partition_counts_witness :
    (["a", "b", "c"] : List String).Nodup ∧
      ((get_group_pairs (["a", "b", "c"] : List String) false false).length =
          2 ^ (["a", "b", "c"] : List String).length - 2 ∧
        (get_group_pairs (["a", "b", "c"] : List String) true false).length =
          2 * ((["a", "b", "c"] : List String).length - 1) ∧
        ∀ p ∈ get_group_pairs (["a", "b", "c"] : List String) true false,
          ∃ k, 0 < k ∧ k < (["a", "b", "c"] : List String).length ∧
            (p = ((["a", "b", "c"] : List String).take k,
                (["a", "b", "c"] : List String).drop k) ∨
              p = ((["a", "b", "c"] : List String).drop k,
                (["a", "b", "c"] : List String).take k))) :=
  ⟨by decide, c1_partition_counts (["a", "b", "c"] : List String) (by decide)⟩

/-- **C8** `get_group_pairs` yields partitions in ascending numeric
order of the N-bit assignment pattern: in the unordered no-empty case
the j-th pair is the grouping of pattern `j + 1`, and the ordered
enumeration is a subsequence of the unordered one (so it follows the
same ascending pattern order); for `['a','b','c','d']` (unordered,
no-empty) the first pair is `(['a','b','c'], ['d'])`, the last is
`(['d'], ['a','b','c'])`, and 14 pairs are returned. -/
theorem c8_enumeration_order :
    (∀ (α : Type) (items : List α) (j : Nat), j < 2 ^ items.length - 2 →
        (get_group_pairs items false false)[j]? =
          some (getGroups (bits items.length (j + 1)) items)) ∧
    (∀ (α : Type) (items : List α),
        (get_group_pairs items true false).Sublist (get_group_pairs items false false)) ∧
    (get_group_pairs (["a", "b", "c", "d"] : List String) false false).head? =
      some (["a", "b", "c"], ["d"]) ∧
    (get_group_pairs (["a", "b", "c", "d"] : List String) false false).getLast? =
      some (["d"], ["a", "b", "c"]) ∧
    (get_group_pairs (["a", "b", "c", "d"] : List String) false false).length = 14 := by
  refine ⟨?_, ?_, by decide, by decide, by decide⟩
  · intro α items j hj
    rw [get_group_pairs_false_false, List.getElem?_map, List.getElem?_range']
    · simp [Nat.add_comm]
    · exact hj
  · intro α items
    rw [get_group_pairs_false_false, get_group_pairs_true_false]
    exact List.Sublist.map _ (List.filter_sublist _)

/-- Witness for C8's quantified clause at `["a","b","c","d"]`, `j = 0`. -/
theorem c8_enumeration_order_witness :
    0 < 2 ^ (["a", "b", "c", "d"] : List String).length - 2 ∧
      (get_group_pairs (["a", "b", "c", "d"] : List String) false false)[0]? =
        some (getGroups (bits (["a", "b", "c", "d"] : List String).length (0 + 1))
          (["a", "b", "c", "d"] : List String)) :=
  ⟨by decide, c8_enumeration_order.1 String (["a", "b", "c", "d"] : List String) 0 (by decide)⟩

/-- **C9 counterexample**: requesting the ordered-type partition
enumeration on a one-label category set does not fail: `get_group_pairs`
has no failure path at all, and returns the empty list of pairs, so the
claim that a configuration error is raised is false on the code. -/
theorem c9_short_ordered_no_error_counterexample :
    get_group_pairs (["only"] : List String) true false = [] := by decide

/-- **C9 amended** An ordered-type partition enumeration on a category
set with fewer than 2 labels returns normally with an empty list of
partitions; no error is raised. -/
theorem c9_short_ordered_returns_empty {α : Type} (items : List α)
    (h : items.length < 2) :
    get_group_pairs items true false = [] := by
  have hn : items.length = 0 ∨ items.length = 1 := by omega
  have h0 : (2 ^ items.length - 1) - 1 = 0 := by
    rcases hn with h1 | h1 <;> rw [h1] <;> norm_num
  simp [get_group_pairs, h0]

/-- Witness for C9's amended claim at the one-label list `["x"]`. -/
theorem c9_short_ordered_returns_empty_witness :
    (["x"] : List String).length < 2 ∧
      get_group_pairs (["x"] : List String) true false = [] :=
  ⟨by decide, c9_short_ordered_returns_empty (["x"] : List String) (by decide)⟩

example :
    count_coincidences
      (.ser ⟨some "gender", [some "rid"],
        [(["1"], some "M"), (["2"], some "F"), (["3"], some "M")]⟩)
      (.ser ⟨some "symptom", [some "rid"],
        [(["1"], some "cough"), (["2"], some "fever"), (["3"], none)]⟩)
      "gender" "symptom" ["M", "F"] ["cough", "fever"] =
      .ok ⟨["cough", "fever"], ["M", "F"], [[1, 0], [0, 1]]⟩ := rfl

example :
    create_cpt
      (.ser ⟨some "gender", [some "rid"],
        [(["1"], some "M"), (["2"], some "F"), (["3"], some "M")]⟩)
      (.ser ⟨some "symptom", [some "rid"],
        [(["1"], some "cough"), (["2"], some "fever"), (["3"], none)]⟩)
      "gender" "symptom" ["M", "F"] ["cough", "fever", "headache"] =
      .ok ⟨["cough", "fever", "headache"], ["M", "F"],
        [[some 1, some 0], [some 0, some 1], [none, none]]⟩ := by with_unfolding_all rfl

example :
    create_jpt
      (.ser ⟨some "gender", [some "rid"],
        [(["1"], some "M"), (["2"], some "F"), (["3"], some "M")]⟩)
      (.ser ⟨some "symptom", [some "rid"],
        [(["1"], some "cough"), (["2"], some "fever"), (["3"], none)]⟩)
      "gender" "symptom" ["M", "F"] ["cough", "fever"] =
      .ok ⟨["cough", "fever"], ["M", "F"],
        [[some (1 / 2), some 0], [some 0, some (1 / 2)]]⟩ := by with_unfolding_all rfl

theorem count_coincidences_eq {d1 d2 : PData} (c1 c2 : String) (o1 o2 : List String)
    {p1 p2 : List (List (List String × Option String))}
    (hv : validateInputs d1 d2 = .ok ()) (ha : alignKeys d1 d2 = .ok (p1, p2)) :
    count_coincidences d1 d2 c1 c2 o1 o2 =
      .ok ⟨o2, o1, o2.map (fun v2 => o1.map (fun v1 => coincidenceCount p1 p2 v1 v2))⟩ := by
  unfold count_coincidences
  rw [hv, ha]
  rfl

theorem count_coincidences_ok_inv {d1 d2 : PData} {c1 c2 : String} {o1 o2 : List String}
    {u : CTable} (h : count_coincidences d1 d2 c1 c2 o1 o2 = .ok u) :
    validateInputs d1 d2 = .ok () ∧
      ∃ p1 p2, alignKeys d1 d2 = .ok (p1, p2) ∧
        u = ⟨o2, o1, o2.map (fun v2 => o1.map (fun v1 => coincidenceCount p1 p2 v1 v2))⟩ := by
  unfold count_coincidences at h
  cases hv : validateInputs d1 d2 with
  | error e =>
    rw [hv] at h
    simp [Bind.bind, Except.bind] at h
  | ok uu =>
    cases uu
    rw [hv] at h
    cases ha : alignKeys d1 d2 with
    | error e =>
      rw [ha] at h
      simp [Bind.bind, Except.bind] at h
    | ok p =>
      obtain ⟨pp1, pp2⟩ := p
      rw [ha] at h
      refine ⟨rfl, pp1, pp2, rfl, ?_⟩
      simp only [Bind.bind, Except.bind, Except.ok.injEq] at h
      exact h.symm

theorem coincidenceCount_eq_zero
    {cols1 cols2 : List (List (List String × Option String))}
    (hdisj : ∀ rc1 ∈ cols1, ∀ r1 ∈ rc1, ∀ rc2 ∈ cols2, ∀ r2 ∈ rc2,
      r1.1 ≠ r2.1) (v1 v2 : String) :
    coincidenceCount cols1 cols2 v1 v2 = 0 := by
  unfold coincidenceCount
  apply List.sum_eq_zero
  intro x hx
  rcases List.mem_map.mp hx with ⟨c1, hc1, hxe⟩
  subst hxe
  apply List.sum_eq_zero
  intro y hy
  rcases List.mem_map.mp hy with ⟨c2, hc2, hye⟩
  subst hye
  unfold pairCount
  apply List.sum_eq_zero
  intro z hz
  rcases List.mem_map.mp hz with ⟨r1, hr1, hze⟩
  subst hze
  apply List.sum_eq_zero
  intro w hw
  rcases List.mem_map.mp hw with ⟨r2, hr2, hwe⟩
  subst hwe
  have hne := hdisj c1 hc1 r1 hr1 c2 hc2 r2 hr2
  simp [hne]

/-- **C5** For valid, correctly-keyed streams whose aligned key sets do
not intersect (no co-occurring observations), `count_coincidences`
returns the all-zero table shaped by the two requested orders, rather
than raising an error. -/
theorem c5_empty_intersection_zero_table (d1 d2 : PData) (c1 c2 : String)
    (o1 o2 : List String)
    (cols1 cols2 : List (List (List String × Option String)))
    (hv : validateInputs d1 d2 = .ok ())
    (ha : alignKeys d1 d2 = .ok (cols1, cols2))
    (hdisj : ∀ rc1 ∈ cols1, ∀ r1 ∈ rc1, ∀ rc2 ∈ cols2, ∀ r2 ∈ rc2,
      r1.1 ≠ r2.1) :
    count_coincidences d1 d2 c1 c2 o1 o2 =
      .ok ⟨o2, o1, o2.map (fun _ => o1.map (fun _ => 0))⟩ := by
  rw [count_coincidences_eq c1 c2 o1 o2 hv ha]
  have hz : ∀ v1 v2, coincidenceCount cols1 cols2 v1 v2 = 0 :=
    fun v1 v2 => coincidenceCount_eq_zero hdisj v1 v2
  simp only [hz]

/-- Witness for C5: two validly keyed simple streams over disjoint
respondent sets produce the all-zero 1×1 table. -/
theorem c5_empty_intersection_zero_table_witness :
    validateInputs
        (.ser ⟨some "x", [some "rid"], [(["1"], some "a")]⟩)
        (.ser ⟨some "y", [some "rid"], [(["2"], some "b")]⟩) = .ok () ∧
      alignKeys
        (.ser ⟨some "x", [some "rid"], [(["1"], some "a")]⟩)
        (.ser ⟨some "y", [some "rid"], [(["2"], some "b")]⟩) =
        .ok ([[(["1"], some "a")]], [[(["2"], some "b")]]) ∧
      count_coincidences
        (.ser ⟨some "x", [some "rid"], [(["1"], some "a")]⟩)
        (.ser ⟨some "y", [some "rid"], [(["2"], some "b")]⟩)
        "x" "y" ["a"] ["b"] =
        .ok ⟨["b"], ["a"], [[0]]⟩ :=
  ⟨rfl, rfl,
    c5_empty_intersection_zero_table _ _ "x" "y" ["a"] ["b"] _ _ rfl rfl (by decide)⟩

/-- **C2 counterexample**: two stacked streams whose instance-key name
sets differ (`drug_a_dose` vs `drug_b_dose`).  The claim predicts that
`count_coincidences` aligns them on the shared `Respondent ID`
component, dropping the non-shared components; the code instead raises
a `ValueError`. -/
theorem c2_stacked_mismatch_counterexample :
    count_coincidences
      (.ser ⟨some "drug_a_response", [some "Respondent ID", some "drug_a_dose"],
        [(["1", "low"], some "better")]⟩)
      (.ser ⟨some "drug_b_response", [some "Respondent ID", some "drug_b_dose"],
        [(["1", "low"], some "worse")]⟩)
      "drug_a_response" "drug_b_response" ["better"] ["worse"] =
      .error "MultiIndexes for data_1 and data_2 must have the same names" := rfl

/-- **C2 amended** When both observation streams are stacked
(MultiIndex-keyed) and their key-component name sets differ,
`count_coincidences` raises an error; it never aligns on the
intersection of the shared key components. -/
theorem c2_stacked_mismatch_errors (d1 d2 : PData) (c1 c2 : String)
    (o1 o2 : List String)
    (hm1 : d1.isMulti = true) (hm2 : d2.isMulti = true)
    (hns : sameNameSet d1.indexNames d2.indexNames = false) :
    ∃ e, count_coincidences d1 d2 c1 c2 o1 o2 = .error e := by
  unfold count_coincidences
  cases hv : validateInputs d1 d2 with
  | error e => exact ⟨e, rfl⟩
  | ok uu =>
    cases uu
    have ha : alignKeys d1 d2 =
        .error "MultiIndexes for data_1 and data_2 must have the same names" := by
      unfold alignKeys
      rw [hm1, hm2, hns]
      rfl
    refine ⟨"MultiIndexes for data_1 and data_2 must have the same names", ?_⟩
    rw [ha]
    rfl

/-- Witness for C2's amended claim on the two concrete stacked streams
with distinct dose-key names. -/
theorem c2_stacked_mismatch_errors_witness :
    (PData.ser ⟨some "drug_a_response", [some "Respondent ID", some "drug_a_dose"],
        [(["1", "low"], some "better")]⟩).isMulti = true ∧
      (PData.ser ⟨some "drug_b_response", [some "Respondent ID", some "drug_b_dose"],
        [(["1", "low"], some "worse")]⟩).isMulti = true ∧
      sameNameSet [some "Respondent ID", some "drug_a_dose"]
        [some "Respondent ID", some "drug_b_dose"] = false ∧
      ∃ e, count_coincidences
        (.ser ⟨some "drug_a_response", [some "Respondent ID", some "drug_a_dose"],
          [(["1", "low"], some "better")]⟩)
        (.ser ⟨some "drug_b_response", [some "Respondent ID", some "drug_b_dose"],
          [(["1", "low"], some "worse")]⟩)
        "drug_a_response" "drug_b_response" ["better"] ["worse"] = .error e :=
  ⟨rfl, rfl, by decide,
    c2_stacked_mismatch_errors _ _ "drug_a_response" "drug_b_response"
      ["better"] ["worse"] rfl rfl (by decide)⟩

theorem validateInputs_comm {d1 d2 : PData} (h : validateInputs d1 d2 = .ok ()) :
    validateInputs d2 d1 = .ok () := by
  cases d1 with
  | ser s1 =>
    cases d2 with
    | ser s2 =>
      simp only [validateInputs, PData.isMulti, PData.indexName, PData.indexNames,
        Bind.bind, Except.bind] at h ⊢
      by_cases h12 : s1.sname = s2.sname
      · rw [if_pos h12] at h
        simp at h
      · rw [if_neg h12] at h
        rw [if_neg (fun hh => h12 hh.symm)]
        split_ifs at h ⊢ <;> simp_all
    | frm f2 =>
      simp only [validateInputs, PData.isMulti, PData.indexName, PData.indexNames,
        Bind.bind, Except.bind] at h ⊢
      split_ifs at h ⊢ <;> simp_all
  | frm f1 =>
    cases d2 with
    | ser s2 =>
      simp only [validateInputs, PData.isMulti, PData.indexName, PData.indexNames,
        Bind.bind, Except.bind] at h ⊢
      split_ifs at h ⊢ <;> simp_all
    | frm f2 => rfl

theorem alignKeys_comm {d1 d2 : PData}
    {p1 p2 : List (List (List String × Option String))}
    (h : alignKeys d1 d2 = .ok (p1, p2)) :
    alignKeys d2 d1 = .ok (p2, p1) := by
  have hs : sameNameSet d2.indexNames d1.indexNames =
      sameNameSet d1.indexNames d2.indexNames := by
    unfold sameNameSet
    rw [Bool.and_comm]
  unfold alignKeys at h ⊢
  by_cases hm1 : d1.isMulti <;> by_cases hm2 : d2.isMulti <;>
    simp only [hm1, hm2, Bool.and_true, Bool.and_false, Bool.true_and, Bool.false_and,
      Bool.not_true, Bool.not_false, if_true, if_false, Bool.and_self, hs] at h ⊢ <;>
    split_ifs at h ⊢ <;> simp_all

theorem sum_map_sum_comm {α β : Type} (a : List α) (b : List β) (f : α → β → Nat) :
    (a.map (fun x => (b.map (fun y => f x y)).sum)).sum =
      (b.map (fun y => (a.map (fun x => f x y)).sum)).sum := by
  induction a with
  | nil => simp
  | cons x xs ih =>
    simp only [List.map_cons, List.sum_cons, ih]
    rw [← List.sum_map_add]

theorem pairCount_comm (ra rb : List (List String × Option String))
    (v1 v2 : String) :
    pairCount ra rb v1 v2 = pairCount rb ra v2 v1 := by
  unfold pairCount
  rw [sum_map_sum_comm]
  apply congrArg
  apply List.map_congr_left
  intro r2 hr2
  apply congrArg
  apply List.map_congr_left
  intro r1 hr1
  by_cases hc : r1.1 = r2.1 ∧ r1.2 = some v1 ∧ r2.2 = some v2
  · rw [if_pos hc, if_pos ⟨hc.1.symm, hc.2.2, hc.2.1⟩]
  · rw [if_neg hc, if_neg (fun hh => hc ⟨hh.1.symm, hh.2.2, hh.2.1⟩)]

theorem coincidenceCount_comm
    (cols1 cols2 : List (List (List String × Option String))) (v1 v2 : String) :
    coincidenceCount cols1 cols2 v1 v2 = coincidenceCount cols2 cols1 v2 v1 := by
  unfold coincidenceCount
  rw [sum_map_sum_comm]
  apply congrArg
  apply List.map_congr_left
  intro c2 hc2
  apply congrArg
  apply List.map_congr_left
  intro c1 hc1
  exact pairCount_comm c1 c2 v1 v2

theorem getD_map {α β : Type} (f : α → β) (l : List α) (n : Nat) (d : β) :
    (l.map f).getD n d = if h : n < l.length then f (l.get ⟨n, h⟩) else d := by
  by_cases h : n < l.length
  · rw [dif_pos h, List.getD_eq_getElem?_getD, List.getElem?_map,
      List.getElem?_eq_getElem h]
    rfl
  · rw [dif_neg h, List.getD_eq_getElem?_getD, List.getElem?_map,
      List.getElem?_eq_none (by omega)]
    rfl

/-- **C7** The transpose of `count_coincidences(X, Y, orderX, orderY)`
equals `count_coincidences(Y, X, orderY, orderX)` cell for cell: when
the first call succeeds so does the swapped call, its row/column labels
are the first call's column/row labels, and cell (i, j) of the swapped
table equals cell (j, i) of the first. -/
theorem c7_transpose_symmetry (d1 d2 : PData) (c1 c2 : String) (o1 o2 : List String)
    (t : CTable) (h : count_coincidences d1 d2 c1 c2 o1 o2 = .ok t) :
    ∃ ts, count_coincidences d2 d1 c2 c1 o2 o1 = .ok ts ∧
      ts.rowLabels = t.colLabels ∧ ts.colLabels = t.rowLabels ∧
      ∀ i j, (ts.cells.getD i []).getD j 0 = (t.cells.getD j []).getD i 0 := by
  obtain ⟨hv, p1, p2, ha, hu⟩ := count_coincidences_ok_inv h
  have hv2 := validateInputs_comm hv
  have ha2 := alignKeys_comm ha
  subst hu
  refine ⟨_, count_coincidences_eq c2 c1 o2 o1 hv2 ha2, rfl, rfl, ?_⟩
  intro i j
  by_cases hi : i < o1.length <;> by_cases hj : j < o2.length <;>
    simp only [getD_map, hi, hj, dif_pos, dif_neg, not_false_iff, List.getD_nil] <;>
    simp [getD_map, hi, hj]
  exact coincidenceCount_comm p2 p1 _ _

theorem filterMap_colAt_self {β : Type} (labels : List String) (rows : List β)
    (hnd : labels.Nodup) (hlen : rows.length = labels.length) :
    labels.filterMap (fun s => colAt labels rows s) = rows := by
  induction labels generalizing rows with
  | nil =>
    cases rows with
    | nil => rfl
    | cons r rs => simp at hlen
  | cons l ls ih =>
    cases rows with
    | nil => simp at hlen
    | cons r rs =>
      have hl : l ∉ ls := (List.nodup_cons.mp hnd).1
      have hnd2 : ls.Nodup := (List.nodup_cons.mp hnd).2
      have hlen2 : rs.length = ls.length := by simpa using hlen
      have h1 : colAt (l :: ls) (r :: rs) l = some r := by
        unfold colAt
        rw [List.zip_cons_cons, List.find?_cons_of_pos _ (by simp)]
        rfl
      have h2 : ∀ s ∈ ls, colAt (l :: ls) (r :: rs) s = colAt ls rs s := by
        intro s hs
        have hne : ¬ (l = s) := fun he => hl (he ▸ hs)
        unfold colAt
        rw [List.zip_cons_cons, List.find?_cons_of_neg _ (by simp [hne])]
      have hhead : (l :: ls).filterMap (fun s => colAt (l :: ls) (r :: rs) s) =
          r :: ls.filterMap (fun s => colAt (l :: ls) (r :: rs) s) := by
        rw [List.filterMap_cons]
        simp [h1]
      rw [hhead, List.filterMap_congr h2, ih rs hnd2 hlen2]

theorem rowDiv_length (row : List Nat) : (rowDiv row).length = row.length := by
  unfold rowDiv
  rw [List.length_map]

/-- A zero-total row divides to all NaN. -/
theorem rowDiv_zero_sum {row : List Nat} (h : row.sum = 0) :
    rowDiv row = List.replicate row.length none := by
  refine List.eq_replicate_iff.mpr ⟨rowDiv_length row, ?_⟩
  intro b hb
  rcases List.mem_map.mp hb with ⟨c, hc, he⟩
  rw [if_pos h] at he
  exact he.symm

/-- A nonzero-total row divides cell-wise, with no NaN. -/
theorem rowDiv_nonzero_sum {row : List Nat} (h : row.sum ≠ 0) :
    rowDiv row = row.map (fun (c : Nat) => some ((c : ℚ) / (row.sum : ℚ))) := by
  apply List.map_congr_left
  intro c hc
  rw [if_neg h]

theorem sum_map_div_cast (row : List Nat) (T : ℚ) :
    (row.map (fun (c : Nat) => (c : ℚ) / T)).sum = ((row.sum : ℕ) : ℚ) / T := by
  induction row with
  | nil => simp
  | cons c cs ih =>
    simp only [List.map_cons, List.sum_cons, ih]
    rw [Nat.cast_add, add_div]

theorem sum_sum_div_cast (cells : List (List Nat)) (T : ℚ) :
    (cells.map (fun (r : List Nat) => ((r.map (fun (c : Nat) => (c : ℚ) / T)).sum))).sum =
      (((cells.map List.sum).sum : ℕ) : ℚ) / T := by
  induction cells with
  | nil => simp
  | cons r rs ih =>
    simp only [sum_map_div_cast] at ih
    simp only [List.map_cons, List.sum_cons, sum_map_div_cast, ih]
    rw [Nat.cast_add, add_div]

/-- Inversion for `create_cpt`: when the underlying coincidence count
succeeds and the orders are duplicate-free, the conditional table is
the count table with rows divided by their totals. -/
theorem create_cpt_ok_inv {pd cd : PData} {pn cn : String} {po co : List String}
    {u : CTable} {t : PTable}
    (hu : count_coincidences pd cd pn cn po co = .ok u)
    (ht : create_cpt pd cd pn cn po co = .ok t)
    (hpo : po.Nodup) (hco : co.Nodup) :
    t = ⟨co, po, u.cells.map rowDiv⟩ := by
  obtain ⟨hv, p1, p2, ha, hue⟩ := count_coincidences_ok_inv hu
  unfold create_cpt at ht
  by_cases hpc : pn = cn
  · rw [if_pos hpc] at ht
    simp [Bind.bind, Except.bind] at ht
  · rw [if_neg hpc, hu] at ht
    simp only [Bind.bind, Except.bind, pure, Except.pure, Except.ok.injEq] at ht
    have hrl : u.rowLabels = co := by rw [hue]
    have hcl : u.colLabels = po := by rw [hue]
    have hclen : u.cells.length = co.length := by
      rw [hue]
      simp
    have hrowlen : ∀ row ∈ u.cells, row.length = po.length := by
      intro row hrow
      rw [hue] at hrow
      rcases List.mem_map.mp hrow with ⟨v2, hv2, he⟩
      rw [← he]
      simp
    have hfRow : co.filter (fun c => c ∈ u.rowLabels) = co := by
      rw [hrl]
      exact List.filter_eq_self.mpr (fun a ha2 => by simpa using ha2)
    have hfCol : po.filter (fun p => p ∈ u.colLabels) = po := by
      rw [hcl]
      exact List.filter_eq_self.mpr (fun a ha2 => by simpa using ha2)
    have hreRows : co.filterMap (fun c => colAt u.rowLabels (u.cells.map rowDiv) c) =
        u.cells.map rowDiv := by
      rw [hrl]
      exact filterMap_colAt_self co (u.cells.map rowDiv) hco
        (by rw [List.length_map, hclen])
    have hcells : ∀ row ∈ u.cells.map rowDiv,
        po.filterMap (colAt u.colLabels row) = row := by
      intro row hrow
      rcases List.mem_map.mp hrow with ⟨r0, hr0, he⟩
      rw [hcl]
      refine filterMap_colAt_self po row hpo ?_
      rw [← he, rowDiv_length]
      exact hrowlen r0 hr0
    rw [hfRow, hfCol, hreRows] at ht
    rw [← ht]
    congr 1
    exact (List.map_congr_left hcells).trans (List.map_id _)

/-- Inversion for `create_jpt`: the joint table is the count table with
every cell divided by the grand total. -/
theorem create_jpt_ok_inv {d1 d2 : PData} {n1 n2 : String} {o1 o2 : List String}
    {u : CTable} {t : PTable}
    (hu : count_coincidences d1 d2 n1 n2 o1 o2 = .ok u)
    (ht : create_jpt d1 d2 n1 n2 o1 o2 = .ok t) :
    t = ⟨u.rowLabels, u.colLabels,
      u.cells.map (fun (row : List Nat) => row.map (fun (c : Nat) =>
        if (u.cells.map List.sum).sum = 0 then none
        else some ((c : ℚ) / (((u.cells.map List.sum).sum : ℕ) : ℚ))))⟩ := by
  unfold create_jpt at ht
  by_cases hpc : n1 = n2
  · rw [if_pos hpc] at ht
    simp [Bind.bind, Except.bind] at ht
  · rw [if_neg hpc, hu] at ht
    simp only [Bind.bind, Except.bind, pure, Except.pure, Except.ok.injEq] at ht
    exact ht.symm

theorem filterMap_id_map_some {α β : Type} (l : List α) (f : α → Option β) :
    (l.map f).filterMap id = l.filterMap f := by
  induction l with
  | nil => rfl
  | cons a as ih =>
    cases ha : f a <;> simp [List.filterMap_cons, ha, ih]

theorem filterMap_some_eq_map {α β : Type} (l : List α) (f : α → β) :
    l.filterMap (fun a => some (f a)) = l.map f := by
  induction l with
  | nil => rfl
  | cons a as ih => simp [List.filterMap_cons, ih]

/-- **C4 counterexample**: the `fever` label never co-occurs, so its
row total is 0; the claim predicts an all-zero row, but `create_cpt`
returns the NaN row `[none]` (0/0), and NaN is not zero. -/
theorem c4_zero_total_row_counterexample :
    create_cpt
        (.ser ⟨some "gender", [some "rid"], [(["1"], some "M")]⟩)
        (.ser ⟨some "symptom", [some "rid"], [(["1"], some "cough")]⟩)
        "gender" "symptom" ["M"] ["cough", "fever"] =
      .ok ⟨["cough", "fever"], ["M"], [[some 1], [none]]⟩ ∧
      (none : Option ℚ) ≠ some 0 := by
  constructor
  · with_unfolding_all rfl
  · simp

/-- Shared row analysis of `create_cpt`: each row of the conditional
table is the division of the corresponding count row, NaN throughout
when the row total is zero and cell-wise exact otherwise. -/
theorem cpt_row_cases {pd cd : PData} {pn cn : String} {po co : List String}
    {u : CTable} {t : PTable}
    (hu : count_coincidences pd cd pn cn po co = .ok u)
    (ht : create_cpt pd cd pn cn po co = .ok t)
    (hpo : po.Nodup) (hco : co.Nodup) :
    ∀ j,
      ((u.cells.getD j []).sum = 0 →
        t.cells.getD j [] = List.replicate (u.cells.getD j []).length none) ∧
      ((u.cells.getD j []).sum ≠ 0 →
        t.cells.getD j [] = (u.cells.getD j []).map
          (fun (c : Nat) => some ((c : ℚ) / (((u.cells.getD j []).sum : ℕ) : ℚ)))) := by
  have hts := create_cpt_ok_inv hu ht hpo hco
  have hcEq : t.cells = u.cells.map rowDiv := by rw [hts]
  intro j
  by_cases hj : j < u.cells.length
  · have hget : u.cells.getD j [] = u.cells.get ⟨j, hj⟩ := by
      rw [List.getD_eq_getElem?_getD, List.getElem?_eq_getElem hj]
      rfl
    have hcell : t.cells.getD j [] = rowDiv (u.cells.getD j []) := by
      rw [hcEq, getD_map, dif_pos hj, hget]
    constructor
    · intro hzero
      rw [hcell, rowDiv_zero_sum hzero]
    · intro hnz
      rw [hcell, rowDiv_nonzero_sum hnz]
  · have hnone : u.cells.getD j [] = [] := by
      rw [List.getD_eq_getElem?_getD, List.getElem?_eq_none (by omega)]
      rfl
    constructor
    · intro hzero
      rw [hcEq, getD_map, dif_neg hj, hnone]
      rfl
    · intro hnz
      rw [hnone] at hnz
      simp at hnz

/-- **C4 amended** In the conditional table built by `create_cpt`, a
conditioning row whose count total is zero comes out all-NaN (each cell
is the undefined `0 / 0` division), not all-zero; every other row is
the counts divided by their row total. -/
theorem c4_zero_total_row_nan (pd cd : PData) (pn cn : String) (po co : List String)
    (u : CTable) (t : PTable)
    (hu : count_coincidences pd cd pn cn po co = .ok u)
    (ht : create_cpt pd cd pn cn po co = .ok t)
    (hpo : po.Nodup) (hco : co.Nodup) :
    ∀ j,
      ((u.cells.getD j []).sum = 0 →
        t.cells.getD j [] = List.replicate (u.cells.getD j []).length none) ∧
      ((u.cells.getD j []).sum ≠ 0 →
        t.cells.getD j [] = (u.cells.getD j []).map
          (fun (c : Nat) => some ((c : ℚ) / (((u.cells.getD j []).sum : ℕ) : ℚ)))) :=
  cpt_row_cases hu ht hpo hco

/-- Witness for C4's amended claim: with the one-respondent streams the
`fever` row (j = 1) has zero total and is returned as `[none]`. -/
theorem c4_zero_total_row_nan_witness :
    count_coincidences c4WitnessD1 c4WitnessD2
        "gender" "symptom" ["M"] ["cough", "fever"] = .ok c4WitnessU ∧
    create_cpt c4WitnessD1 c4WitnessD2
        "gender" "symptom" ["M"] ["cough", "fever"] = .ok c4WitnessT ∧
    (["M"] : List String).Nodup ∧
    (["cough", "fever"] : List String).Nodup ∧
    (((c4WitnessU.cells.getD 1 []).sum = 0 →
        c4WitnessT.cells.getD 1 [] =
          List.replicate (c4WitnessU.cells.getD 1 []).length none) ∧
      ((c4WitnessU.cells.getD 1 []).sum ≠ 0 →
        c4WitnessT.cells.getD 1 [] = (c4WitnessU.cells.getD 1 []).map
          (fun (c : Nat) => some ((c : ℚ) /
            (((c4WitnessU.cells.getD 1 []).sum : ℕ) : ℚ))))) :=
  ⟨rfl, by with_unfolding_all rfl, by decide, by decide,
    c4_zero_total_row_nan c4WitnessD1 c4WitnessD2 "gender" "symptom"
      ["M"] ["cough", "fever"] c4WitnessU c4WitnessT
      rfl (by with_unfolding_all rfl) (by decide) (by decide) 1⟩

/-- **C6** Conditional tables from `create_cpt` have rows summing to 1
whenever the underlying count row total is nonzero (and such rows carry
no NaN); joint tables from `create_jpt` sum to 1 over all cells
whenever the grand count total is nonzero. -/
theorem c6_probability_tables_normalized :
    (∀ (pd cd : PData) (pn cn : String) (po co : List String) (u : CTable) (t : PTable),
        count_coincidences pd cd pn cn po co = .ok u →
        create_cpt pd cd pn cn po co = .ok t →
        po.Nodup → co.Nodup →
        ∀ j, (u.cells.getD j []).sum ≠ 0 →
          none ∉ t.cells.getD j [] ∧
            ((t.cells.getD j []).filterMap id).sum = 1) ∧
    (∀ (d1 d2 : PData) (n1 n2 : String) (o1 o2 : List String) (u : CTable) (t : PTable),
        count_coincidences d1 d2 n1 n2 o1 o2 = .ok u →
        create_jpt d1 d2 n1 n2 o1 o2 = .ok t →
        (u.cells.map List.sum).sum ≠ 0 →
          (∀ row ∈ t.cells, none ∉ row) ∧
            (t.cells.map (fun (row : List (Option ℚ)) => (row.filterMap id).sum)).sum = 1) := by
  constructor
  · intro pd cd pn cn po co u t hu ht hpo hco j hnz
    have hrow := (cpt_row_cases hu ht hpo hco j).2 hnz
    have hTne : ((((u.cells.getD j []).sum : ℕ) : ℚ)) ≠ 0 := by
      exact_mod_cast hnz
    constructor
    · rw [hrow]
      intro hmem
      rcases List.mem_map.mp hmem with ⟨c, hc, he⟩
      simp at he
    · rw [hrow, filterMap_id_map_some]
      rw [filterMap_some_eq_map, sum_map_div_cast, div_self hTne]
  · intro d1 d2 n1 n2 o1 o2 u t hu ht hnz
    have hts := create_jpt_ok_inv hu ht
    have hcEq : t.cells = u.cells.map (fun (row : List Nat) => row.map
        (fun (c : Nat) => some ((c : ℚ) / (((u.cells.map List.sum).sum : ℕ) : ℚ)))) := by
      rw [hts]
      apply List.map_congr_left
      intro r hr
      apply List.map_congr_left
      intro c hc
      rw [if_neg hnz]
    constructor
    · intro row hrow hmem
      rw [hcEq] at hrow
      rcases List.mem_map.mp hrow with ⟨r0, hr0, he⟩
      rw [← he] at hmem
      rcases List.mem_map.mp hmem with ⟨c, hc, he2⟩
      simp at he2
    · rw [hcEq, List.map_map]
      have hrw : ((fun (row : List (Option ℚ)) => (row.filterMap id).sum) ∘
          fun (row : List Nat) => row.map
            (fun (c : Nat) => some ((c : ℚ) / (((u.cells.map List.sum).sum : ℕ) : ℚ)))) =
          fun (row : List Nat) => (row.map
            (fun (c : Nat) => ((c : ℚ) / (((u.cells.map List.sum).sum : ℕ) : ℚ)))).sum := by
        funext row
        show ((row.map (fun (c : Nat) => some ((c : ℚ) /
          (((u.cells.map List.sum).sum : ℕ) : ℚ)))).filterMap id).sum = _
        rw [filterMap_id_map_some, filterMap_some_eq_map]
      rw [hrw, sum_sum_div_cast, div_self (by exact_mod_cast hnz)]

/-- Witness for C6 on the concrete gender/symptom streams, exercising
both the conditional (row 0) and the joint clauses. -/
theorem c6_probability_tables_normalized_witness :
    count_coincidences genderData symptomData
        "gender" "symptom" ["M", "F"] ["cough", "fever"] = .ok genderSymptomCounts ∧
    create_cpt genderData symptomData
        "gender" "symptom" ["M", "F"] ["cough", "fever"] = .ok genderSymptomCpt ∧
    (["M", "F"] : List String).Nodup ∧
    (["cough", "fever"] : List String).Nodup ∧
    (genderSymptomCounts.cells.getD 0 []).sum ≠ 0 ∧
    (none ∉ genderSymptomCpt.cells.getD 0 [] ∧
      ((genderSymptomCpt.cells.getD 0 []).filterMap id).sum = 1) ∧
    create_jpt genderData symptomData
        "gender" "symptom" ["M", "F"] ["cough", "fever"] = .ok genderSymptomJpt ∧
    (genderSymptomCounts.cells.map List.sum).sum ≠ 0 ∧
    ((∀ row ∈ genderSymptomJpt.cells, none ∉ row) ∧
      (genderSymptomJpt.cells.map
        (fun (row : List (Option ℚ)) => (row.filterMap id).sum)).sum = 1) :=
  ⟨rfl, by with_unfolding_all rfl, by decide, by decide, by decide,
    c6_probability_tables_normalized.1 genderData symptomData "gender" "symptom"
      ["M", "F"] ["cough", "fever"] genderSymptomCounts genderSymptomCpt
      rfl (by with_unfolding_all rfl) (by decide) (by decide) 0 (by decide),
    by with_unfolding_all rfl, by decide,
    c6_probability_tables_normalized.2 genderData symptomData "gender" "symptom"
      ["M", "F"] ["cough", "fever"] genderSymptomCounts genderSymptomJpt
      rfl (by with_unfolding_all rfl) (by decide)⟩

/-- Witness for C7 on the concrete gender/symptom streams. -/
theorem c7_transpose_symmetry_witness :
    count_coincidences genderData symptomData
        "gender" "symptom" ["M", "F"] ["cough", "fever"] = .ok genderSymptomCounts ∧
    (∃ ts, count_coincidences symptomData genderData
          "symptom" "gender" ["cough", "fever"] ["M", "F"] = .ok ts ∧
        ts.rowLabels = genderSymptomCounts.colLabels ∧
        ts.colLabels = genderSymptomCounts.rowLabels ∧
        ∀ i j, (ts.cells.getD i []).getD j 0 =
          (genderSymptomCounts.cells.getD j []).getD i 0) :=
  ⟨rfl, c7_transpose_symmetry genderData symptomData "gender" "symptom"
    ["M", "F"] ["cough", "fever"] genderSymptomCounts rfl⟩

/-- No label of the `group_values=False` column selection is a plain
string, so any lookup of a bare string label fails to find a column. -/
theorem resultReportCols_findIdx_str (attribute_name s : String)
    (attr_categories answer_categories : List String) :
    (resultReportCols attribute_name attr_categories
        answer_categories).findIdx?
      (fun c => decide (c = PLabel.str s)) = none := by
  rw [List.findIdx?_eq_none_iff]
  intro x hx
  cases x with
  | pair a b => simp
  | str t => simp [resultReportCols] at hx

/-- A string absent from the eleven `group_values=True` labels is not
found among the grouped report's columns. -/
theorem groupedReportCols_findIdx_str {c : String}
    (h : c ∉ groupedReportColNames) :
    groupedReportCols.findIdx?
      (fun x => decide (x = PLabel.str c)) = none := by
  rw [List.findIdx?_eq_none_iff]
  intro x hx
  rcases List.mem_map.mp hx with ⟨nm, hnm, rfl⟩
  simp only [decide_eq_false_iff_not]
  intro he
  injection he with he2
  exact h (he2 ▸ hnm)

/-- `sort_values` on a report whose columns miss the label. -/
theorem sort_values_eq_error {rep : Report} {label : PLabel}
    (h : rep.cols.findIdx? (fun c => decide (c = label)) = none) :
    sort_values rep label = Except.error "KeyError" := by
  simp [sort_values, h]

/-- `sort_values` on a report whose columns hold the label at `j`. -/
theorem sort_values_eq_ok {rep : Report} {label : PLabel} {j : Nat}
    (h : rep.cols.findIdx? (fun c => decide (c = label)) = some j) :
    sort_values rep label = Except.ok ⟨rep.cols,
      rep.rows.insertionSort (fun r1 r2 =>
        cellLe (r2.getD j PCell.na) (r1.getD j PCell.na) = true)⟩ := by
  simp [sort_values, h]

/-- A failed sort aborts `prune_results` immediately. -/
theorem prune_results_sort_error {results : Report}
    {answer_categories attr_categories : List String}
    (h : sort_values results (PLabel.str "p_superior") =
      Except.error "KeyError") :
    prune_results results answer_categories attr_categories =
      Except.error "KeyError" := by
  simp [prune_results, h, Bind.bind, Except.bind]

/-- A `foldlM` over `range N` whose body fails at index `0` fails. -/
theorem foldlM_range_head_error {β : Type}
    {f : β → Nat → Except String β} {init : β} {N : Nat} (hN : 1 ≤ N)
    (h0 : f init 0 = Except.error "KeyError") :
    (List.range N).foldlM f init = Except.error "KeyError" := by
  obtain ⟨m, rfl⟩ : ∃ m, N = m + 1 := ⟨N - 1, by omega⟩
  rw [List.range_eq_range',
    show List.range' 0 (m + 1) = 0 :: List.range' 1 m from rfl,
    List.foldlM_cons, h0]
  rfl

/-- `row[labels]` fails as soon as its first label is missing. -/
theorem rowSelect_head_error {cols : List PLabel} {row : List PCell}
    {k : PLabel} {ks : List PLabel}
    (h : cols.findIdx? (fun c => decide (c = k)) = none) :
    rowSelect cols row (k :: ks) = Except.error "KeyError" := by
  unfold rowSelect
  rw [List.mapM_cons]
  simp [h, Bind.bind, Except.bind]

/-- If the sort succeeds but the first iterated row's attribute-column
lookup fails, `prune_results` fails. -/
theorem prune_results_first_row_error {results : Report} {S : Report}
    {answer_categories attr_categories : List String}
    (hsort : sort_values results (PLabel.str "p_superior") = Except.ok S)
    (hlen : 1 ≤ S.rows.length)
    (h0 : rowSelect S.cols (S.rows.getD 0 [])
      (attr_categories.map PLabel.str) = Except.error "KeyError") :
    prune_results results answer_categories attr_categories =
      Except.error "KeyError" := by
  unfold prune_results
  rw [hsort]
  have h0a : rowSelect S.cols ((S.rows[0]?).getD [])
      (attr_categories.map PLabel.str) = Except.error "KeyError" := by
    rw [← List.getD_eq_getElem?_getD]
    exact h0
  simp only [Bind.bind, Except.bind]
  rw [foldlM_range_head_error hlen (by simp [h0, h0a, Bind.bind, Except.bind])]

/-- Row count of a computed report: one row per element of the product
of the two group-pair enumerations, in either `group_values` mode. -/
theorem analyze_rows_length (survey_name question_name attribute_name : String)
    (attr_categories answer_categories : List String)
    (attr_ordered answer_ordered : Bool)
    (prob : List String × List String → List String × List String → ProbResult)
    (group_values : Bool) :
    (analyze_responses_by_attribute survey_name question_name attribute_name
        attr_categories answer_categories attr_ordered answer_ordered
        prob group_values).rows.length =
      (group_pairs attr_categories attr_ordered).length *
        (group_pairs answer_categories answer_ordered).length := by
  cases group_values <;>
    simp [analyze_responses_by_attribute] <;>
    exact List.length_product _ _

/-- With at least two categories, `group_pairs` is nonempty in both
orderings: `2 ^ N - 2` and `2 * (N - 1)` are positive for `N ≥ 2`. -/
theorem group_pairs_length_pos {cats : List String} (h : 2 ≤ cats.length)
    (ordered : Bool) : 1 ≤ (group_pairs cats ordered).length := by
  have h4 : 4 ≤ 2 ^ cats.length := by
    calc (4 : ℕ) = 2 ^ 2 := by norm_num
      _ ≤ 2 ^ cats.length := Nat.pow_le_pow_right (by norm_num) h
  cases ordered with
  | false =>
    rw [show group_pairs cats false = get_group_pairs cats false false
        from rfl,
      get_group_pairs_false_false, List.length_map, List.length_range']
    omega
  | true =>
    rw [show group_pairs cats true = get_group_pairs cats true false
        from rfl,
      get_group_pairs_true_false, List.length_map,
      filter_orderedCond_length]
    omega

/-- **C3 counterexample**: a concrete computed comparison report
(attribute categories `m`, `f`; answer categories `y`, `n`, `w`) with
twelve rows, among them row 2 (experimental answers `{y}`) and row 0
(experimental answers `{y, n}`) with identical attribute-side cells —
the configuration the claim says gets row 2 dropped.  Instead
`prune_results` raises `KeyError` on the report of either
`group_values` mode before pruning anything: no report is returned at
all, dropped rows and kept rows alike. -/
theorem c3_prune_keyerror_counterexample :
    prune_results pruneReportUngrouped ["y", "n", "w"] ["m", "f"] =
      Except.error "KeyError" ∧
    prune_results pruneReportGrouped ["y", "n", "w"] ["m", "f"] =
      Except.error "KeyError" ∧
    pruneReportUngrouped.rows.length = 12 ∧
    pruneReportGrouped.rows.length = 12 ∧
    (pruneReportUngrouped.rows.getD 0 []).take 4 =
      (pruneReportUngrouped.rows.getD 2 []).take 4 ∧
    (pruneReportUngrouped.rows.getD 2 []).getD 4 PCell.na = PCell.b true ∧
    (pruneReportUngrouped.rows.getD 2 []).getD 5 PCell.na = PCell.b false ∧
    (pruneReportUngrouped.rows.getD 0 []).getD 4 PCell.na = PCell.b true ∧
    (pruneReportUngrouped.rows.getD 0 []).getD 5 PCell.na = PCell.b true := by
  refine ⟨?_, ?_, ?_, ?_, ?_, ?_, ?_, ?_, ?_⟩ <;> with_unfolding_all rfl

/-- **C3 amended** `prune_results` never reaches its drop logic on a
computed comparison report: on every `group_values=False` report it
raises `KeyError` in the initial `sort_values('p_superior')`, because
that report's columns are all tuple-labelled; and on every nonempty
`group_values=True` report (at least two attribute and two answer
categories, attribute category names distinct from the eleven grouped
column labels) it raises `KeyError` at the first row's
`row[attribute.categories]` lookup, because the grouped report has no
per-category columns.  No row is ever dropped or kept: no report is
returned. -/
theorem c3_prune_raises_on_computed_reports
    (survey_name question_name attribute_name : String)
    (attr_categories answer_categories : List String)
    (attr_ordered answer_ordered : Bool)
    (prob : List String × List String → List String × List String → ProbResult) :
    prune_results
        (analyze_responses_by_attribute survey_name question_name
          attribute_name attr_categories answer_categories attr_ordered
          answer_ordered prob false)
        answer_categories attr_categories = Except.error "KeyError" ∧
    (2 ≤ attr_categories.length → 2 ≤ answer_categories.length →
      (∀ c ∈ attr_categories, c ∉ groupedReportColNames) →
      prune_results
          (analyze_responses_by_attribute survey_name question_name
            attribute_name attr_categories answer_categories attr_ordered
            answer_ordered prob true)
          answer_categories attr_categories = Except.error "KeyError") := by
  constructor
  · apply prune_results_sort_error
    apply sort_values_eq_error
    rw [show (analyze_responses_by_attribute survey_name question_name
        attribute_name attr_categories answer_categories attr_ordered
        answer_ordered prob false).cols =
      resultReportCols attribute_name attr_categories answer_categories
      from rfl]
    exact resultReportCols_findIdx_str attribute_name "p_superior"
      attr_categories answer_categories
  · intro ha hb hfresh
    obtain ⟨c, rest, hrest⟩ : ∃ c rest, attr_categories = c :: rest := by
      cases attr_categories with
      | nil => simp at ha
      | cons c rest => exact ⟨c, rest, rfl⟩
    have hcols : (analyze_responses_by_attribute survey_name question_name
        attribute_name attr_categories answer_categories attr_ordered
        answer_ordered prob true).cols = groupedReportCols := rfl
    have hfind : (analyze_responses_by_attribute survey_name question_name
        attribute_name attr_categories answer_categories attr_ordered
        answer_ordered prob true).cols.findIdx?
        (fun x => decide (x = PLabel.str "p_superior")) = some 7 := by
      rw [hcols]; rfl
    apply prune_results_first_row_error (sort_values_eq_ok hfind)
    · rw [List.length_insertionSort, analyze_rows_length]
      exact Nat.one_le_iff_ne_zero.mpr (Nat.mul_ne_zero
        (Nat.one_le_iff_ne_zero.mp (group_pairs_length_pos ha attr_ordered))
        (Nat.one_le_iff_ne_zero.mp (group_pairs_length_pos hb answer_ordered)))
    · rw [hcols, hrest, List.map_cons]
      exact rowSelect_head_error
        (groupedReportCols_findIdx_str (hfresh c (by rw [hrest]; simp)))

/-- Witness for the `group_values=True` clause of the C3 amended
theorem at the concrete twelve-row instance. -/
theorem c3_prune_raises_on_computed_reports_witness :
    prune_results
        (analyze_responses_by_attribute "s" "q" "gender" ["m", "f"]
          ["y", "n", "w"] false false pruneProb true)
        ["y", "n", "w"] ["m", "f"] = Except.error "KeyError" :=
  (c3_prune_raises_on_computed_reports "s" "q" "gender" ["m", "f"]
      ["y", "n", "w"] false false pruneProb).2
    (by decide) (by decide) (by decide)

/-- **C10** `significance_one_vs_all` computes every trial count `n` as
the number of non-missing answers, while `significance_one_vs_any`
computes every trial count `n` as the total number of entries, missing
answers included; on data `[some "a", none]` the two modes therefore
use different `n` (1 versus 2) for the same category list. -/
theorem c10_trial_counts_differ :
    (∀ (categories : List String) (data : List (Option String)),
        (significanceOneVsAllParams categories data).map (fun t => t.2.1.1) =
          List.replicate categories.length (data.filterMap id).length ∧
        (significanceOneVsAllParams categories data).map (fun t => t.2.2.1) =
          List.replicate categories.length (data.filterMap id).length) ∧
    (∀ (categories : List String) (data : List (Option String)),
        (significanceOneVsAnyParams categories data).map (fun t => t.2.1.1) =
          List.replicate categories.length data.length ∧
        (significanceOneVsAnyParams categories data).map (fun t => t.2.2.1) =
          List.replicate categories.length data.length) ∧
    (significanceOneVsAllParams ["a", "b"] [some "a", none]).map (fun t => t.2.1.1) =
      [1, 1] ∧
    (significanceOneVsAnyParams ["a", "b"] [some "a", none]).map (fun t => t.2.1.1) =
      [2, 2] ∧
    (1 : Nat) ≠ 2 := by
  refine ⟨?_, ?_, by decide, ?_, by decide⟩
  · intro categories data
    constructor <;>
      · simp only [significanceOneVsAllParams, List.map_map]
        exact List.map_const' categories _
  · intro categories data
    constructor <;>
      · simp only [significanceOneVsAnyParams, List.map_map]
        exact List.map_const' categories _
  · simp only [significanceOneVsAnyParams, List.map_map]
    decide

end QuantSurvey
